import Mathlib

/-
Verification development for the Monocle schema-introspection core.

The Rust sources under src-tauri/src are shallowly embedded below:
  * db/queries.rs      : format_data_type
  * db/connection.rs   : parse_server_async (SSRP resolution abstracted as an oracle)
  * db/ssrp.rs         : parse_ssrp_response, resolve_instance_port (network I/O
                         abstracted as a list of per-address attempt outcomes)
  * db/schema_loader.rs: the full load pipeline over an abstract connection whose
                         seven catalog queries each yield rows or fail
  * commands/mock.rs   : the deterministic mock generator (its own revision of the
                         data model, hence the Mock-prefixed structures)

Machine integers are modelled as Nat/Int with explicit wrap-around where the Rust
code can wrap (the mock generator's wrapping_add/wrapping_mul on 64-bit usize).
Rust HashMap/HashSet are modelled as insertion-ordered association lists / lists
with insert-if-absent; all claims proved below are insensitive to the iteration
order those containers leave unspecified.  Strings are compared with the ASCII
case conventions the code relies on; Unicode-only divergences (Rust's full
case-folding, Unicode \w and \s classes) are outside every claim's inputs.
-/

namespace Monocle

/-! ## String helpers shared by several components -/

/-- ASCII lowercase of a character, mirroring Rust `char::to_ascii_lowercase`
and the ASCII fragment of `str::to_lowercase`. -/
def asciiLower (c : Char) : Char :=
  if 'A' ≤ c ∧ c ≤ 'Z' then Char.ofNat (c.toNat + 32) else c

/-- Lowercase a string (ASCII fragment of Rust `str::to_lowercase`). -/
def strLower (s : String) : String :=
  String.mk (s.toList.map asciiLower)

/-- Word character of the regex class `\w` (ASCII fragment). -/
def isWordChar (c : Char) : Bool :=
  c.isAlphanum || c = '_'

/-- Whitespace of the regex class `\s` (ASCII fragment). -/
def isWs (c : Char) : Bool :=
  c = ' ' || c = '\t' || c = '\n' || c = '\r' || c.toNat = 11 || c.toNat = 12

/-- Decidable equality for `Except`, used to evaluate concrete runs. -/
instance exceptDecEq {ε α : Type} [DecidableEq ε] [DecidableEq α] :
    DecidableEq (Except ε α) := fun x y =>
  match x, y with
  | .ok a, .ok b =>
    if h : a = b then .isTrue (by rw [h])
    else .isFalse (by intro hc; injection hc; contradiction)
  | .error a, .error b =>
    if h : a = b then .isTrue (by rw [h])
    else .isFalse (by intro hc; injection hc; contradiction)
  | .ok _, .error _ => .isFalse (by intro hc; exact Except.noConfusion hc)
  | .error _, .ok _ => .isFalse (by intro hc; exact Except.noConfusion hc)

/-- Rust `str::trim` (ASCII fragment): strip leading and trailing whitespace.
Defined on the character list so that concrete runs reduce. -/
def trimStr (s : String) : String :=
  String.mk (((s.toList.dropWhile Char.isWhitespace).reverse.dropWhile
    Char.isWhitespace).reverse)

/-- Parse a nonempty all-digit character list into a number
(the digit-consuming core of Rust integer `FromStr`). -/
def parseDigits : List Char → Option Nat
  | [] => none
  | cs =>
    if cs.all (fun c => c.isDigit) then
      some (cs.foldl (fun acc c => acc * 10 + (c.toNat - 48)) 0)
    else
      none

/-- Rust `str::parse::<u16>()`: optional leading plus sign, one or more ASCII
digits, value at most 65535.  A minus sign is rejected for unsigned targets. -/
def parseU16Str (s : String) : Option Nat :=
  let core : List Char → Option Nat := fun cs =>
    match parseDigits cs with
    | some n => if n ≤ 65535 then some n else none
    | none => none
  match s.toList with
  | '+' :: rest => core rest
  | cs => core cs

/-- Rust `str::parse::<i16>()`: optional sign, digits, range -32768..=32767. -/
def parseI16Str (s : String) : Option Int :=
  match s.toList with
  | '+' :: rest =>
    match parseDigits rest with
    | some n => if n ≤ 32767 then some (n : Int) else none
    | none => none
  | '-' :: rest =>
    match parseDigits rest with
    | some n => if n ≤ 32768 then some (-(n : Int)) else none
    | none => none
  | cs =>
    match parseDigits cs with
    | some n => if n ≤ 32767 then some (n : Int) else none
    | none => none

/-- Rust `str::parse::<u8>()`: optional leading plus sign, digits, at most 255. -/
def parseU8Str (s : String) : Option Nat :=
  let core : List Char → Option Nat := fun cs =>
    match parseDigits cs with
    | some n => if n ≤ 255 then some n else none
    | none => none
  match s.toList with
  | '+' :: rest => core rest
  | cs => core cs

/-! ## Type formatter (db/queries.rs, format_data_type) -/

/-- Embedding of `format_data_type` from db/queries.rs.  `max_length` is the
catalog `i16` (so it may be -1), `precision` and `scale` are the catalog `u8`.
Rust `i16` division truncates toward zero, hence `Int.tdiv`. -/
def format_data_type (type_name : String) (max_length : Int)
    (precision scale : Nat) : String :=
  if type_name = "varchar" ∨ type_name = "char" ∨ type_name = "nchar" then
    if max_length = -1 then type_name ++ "(max)"
    else type_name ++ "(" ++ toString max_length ++ ")"
  else if type_name = "nvarchar" then
    if max_length = -1 then type_name ++ "(max)"
    else type_name ++ "(" ++ toString (Int.tdiv max_length 2) ++ ")"
  else if type_name = "decimal" ∨ type_name = "numeric" then
    type_name ++ "(" ++ toString precision ++ "," ++ toString scale ++ ")"
  else if type_name = "float" then
    if 0 < precision ∧ precision ≠ 53 then "float(" ++ toString precision ++ ")"
    else "float"
  else if type_name = "datetime2" ∨ type_name = "datetimeoffset" ∨ type_name = "time" then
    if 0 < scale ∧ scale ≠ 7 then type_name ++ "(" ++ toString scale ++ ")"
    else type_name
  else if type_name = "varbinary" ∨ type_name = "binary" then
    if max_length = -1 then type_name ++ "(max)"
    else type_name ++ "(" ++ toString max_length ++ ")"
  else type_name

/-- Modelled from the spec: the section 4.E display-rule table, with the
datetime-family row amended to match the code (parenthesised scale only when
the scale is neither 0 nor the default 7). -/
def format_data_type_table (type_name : String) (max_length : Int)
    (precision scale : Nat) : String :=
  if type_name ∈ ["varchar", "char", "nchar"] then
    if max_length = -1 then type_name ++ "(max)"
    else type_name ++ "(" ++ toString max_length ++ ")"
  else if type_name ∈ ["nvarchar"] then
    if max_length = -1 then type_name ++ "(max)"
    else type_name ++ "(" ++ toString (Int.tdiv max_length 2) ++ ")"
  else if type_name ∈ ["decimal", "numeric"] then
    type_name ++ "(" ++ toString precision ++ "," ++ toString scale ++ ")"
  else if type_name ∈ ["float"] then
    if 0 < precision ∧ precision ≠ 53 then "float(" ++ toString precision ++ ")"
    else "float"
  else if type_name ∈ ["datetime2", "datetimeoffset", "time"] then
    if 0 < scale ∧ scale ≠ 7 then type_name ++ "(" ++ toString scale ++ ")"
    else type_name
  else if type_name ∈ ["varbinary", "binary"] then
    if max_length = -1 then type_name ++ "(max)"
    else type_name ++ "(" ++ toString max_length ++ ")"
  else type_name

/-- C4 counterexample: the claim demands `"<t>(<scale>)"` for every scale other
than 7, but at scale 0 the code takes the `scale > 0` guard's else branch and
emits the bare type name: `format_data_type "datetime2" 0 0 0 = "datetime2"`,
not `"datetime2(0)"`. -/
theorem c4_datetime_scale_zero_counterexample :
    (0 : Nat) ≠ 7 ∧
    format_data_type "datetime2" 0 0 0 = "datetime2" ∧
    "datetime2" ≠ "datetime2(0)" := by
  refine ⟨by decide, by decide, by decide⟩

/-- C4 (amended): for every input, `format_data_type` agrees with the section
4.E rule table once the datetime-family row is read as: parenthesised scale
exactly when the scale is positive and not 7 (so plain `"<t>"` for scale 0 as
well as for the default scale 7).  In particular nvarchar emits
`max_length / 2` whenever `max_length` is not -1. -/
theorem c4_format_data_type_matches_table (type_name : String) (max_length : Int)
    (precision scale : Nat) :
    format_data_type type_name max_length precision scale =
      format_data_type_table type_name max_length precision scale := by
  simp only [format_data_type, format_data_type_table, List.mem_cons,
    List.mem_singleton, List.not_mem_nil, or_false]

/-! ## SSRP (db/ssrp.rs) -/

/-- Error taxonomy of db/ssrp.rs (`SsrpError`).  The `odbc`-free Rust enum's
`Io(std::io::Error)` payload is modelled as its display message; the variant is
named `IoErr` here because Lean reserves some suffixes.  `PortNotFound` carries
the instance name (field `instance` in Rust, `inst` here: `instance` is a Lean
keyword). -/
inductive SsrpError where
  | HostResolution (host : String)
  | Timeout
  | InvalidResponse
  | PortNotFound (inst : String)
  | IoErr (msg : String)
deriving DecidableEq, Repr

/-- Display messages of `SsrpError` (the `thiserror` attributes in db/ssrp.rs),
used by `parse_server_async` when it wraps a resolution failure. -/
def ssrpErrMsg : SsrpError → String
  | .HostResolution host =>
      "Could not resolve host `" ++ host ++ "` for SQL Server Browser lookup"
  | .Timeout => "Timed out waiting for SQL Server Browser response on UDP 1434"
  | .InvalidResponse => "SQL Server Browser returned an invalid response"
  | .PortNotFound inst =>
      "SQL Server Browser did not return a TCP port for instance `" ++ inst ++ "`"
  | .IoErr msg => "Network error during SQL Server Browser lookup: " ++ msg

/-- Split a byte list on a separator byte, Rust `str::split` semantics:
the empty list yields one empty token, adjacent separators yield empty tokens. -/
def splitOnByte : List Nat → Nat → List Nat → List (List Nat)
  | [], _, acc => [acc.reverse]
  | b :: rest, sep, acc =>
    if b = sep then acc.reverse :: splitOnByte rest sep []
    else splitOnByte rest sep (b :: acc)

/-- One `;`-token equals "tcp" case-insensitively.  The response string is the
lossy UTF-8 decoding of the payload bytes; since `;` (0x3B) is never part of a
multi-byte UTF-8 sequence, splitting at byte level agrees with splitting the
decoded string, and a decoded token equals "tcp" ASCII-case-insensitively
exactly when its bytes are these three. -/
def eqIgnoreCaseTcp (tok : List Nat) : Bool :=
  match tok with
  | [a, b, c] =>
    (a == 116 || a == 84) && (b == 99 || b == 67) && (c == 112 || c == 80)
  | _ => false

/-- Rust `str::parse::<u16>()` applied to the lossy decoding of a byte token:
optional leading `+` (0x2B), one or more ASCII digits, at most 65535.  Bytes
outside ASCII decode to characters that are not digits, so they fail here just
as they fail in Rust. -/
def parseU16Bytes (tok : List Nat) : Option Nat :=
  let core : List Nat → Option Nat := fun bs =>
    match bs with
    | [] => none
    | _ =>
      if bs.all (fun b => 48 ≤ b ∧ b ≤ 57) then
        let n := bs.foldl (fun acc b => acc * 10 + (b - 48)) 0
        if n ≤ 65535 then some n else none
      else none
  match tok with
  | 43 :: rest => core rest
  | bs => core bs

/-- Scan the token list as a sliding window of adjacent pairs and return the
value token of the first window whose key token is "tcp" (`parts.windows(2)`
in db/ssrp.rs). -/
def findTcpValue : List (List Nat) → Option (List Nat)
  | a :: b :: rest => if eqIgnoreCaseTcp a then some b else findTcpValue (b :: rest)
  | _ => none

/-- Embedding of `parse_ssrp_response` from db/ssrp.rs.  `data` is the received
datagram as bytes.  The header check is `data.len() < 3 || data[0] != 0x05`;
the payload after the 3-byte header is split on `;` and scanned for the first
`tcp` key, whose following token is parsed as the port (a parse failure is an
`InvalidResponse`). -/
def parse_ssrp_response (data : List Nat) (inst : String) : Except SsrpError Nat :=
  if data.length < 3 ∨ data.headD 0 ≠ 0x05 then
    .error .InvalidResponse
  else
    match findTcpValue (splitOnByte (data.drop 3) 59 []) with
    | some tok =>
      match parseU16Bytes tok with
      | some port => .ok port
      | none => .error .InvalidResponse
    | none => .error (.PortNotFound inst)

/-- Outcome of one per-address SSRP attempt, abstracting the UDP I/O of
`resolve_instance_port`: socket bind failure, send failure, receive failure
(each a `std::io::Error` modelled by its message), a 2-second timeout, or a
received datagram. -/
inductive SsrpAttempt where
  | bindErr (msg : String)
  | sendErr (msg : String)
  | recvErr (msg : String)
  | timedOut
  | datagram (bytes : List Nat)
deriving DecidableEq, Repr

/-- The per-address loop of `resolve_instance_port`, with its four pieces of
retained failure state (`missing_port`, `invalid_response`, `timed_out`,
`last_io_error`) and its final precedence chain. -/
def resolveLoop (inst host : String) :
    List SsrpAttempt → Bool → Bool → Bool → Option String → Except SsrpError Nat
  | [], missing, invalid, timed, lastIo =>
    if missing then .error (.PortNotFound inst)
    else if invalid then .error .InvalidResponse
    else if timed then .error .Timeout
    else
      match lastIo with
      | some msg => .error (.IoErr msg)
      | none => .error (.HostResolution host)
  | a :: rest, missing, invalid, timed, lastIo =>
    match a with
    | .bindErr msg => resolveLoop inst host rest missing invalid timed (some msg)
    | .sendErr msg => resolveLoop inst host rest missing invalid timed (some msg)
    | .recvErr msg => resolveLoop inst host rest missing invalid timed (some msg)
    | .timedOut => resolveLoop inst host rest missing invalid true lastIo
    | .datagram d =>
      match parse_ssrp_response d inst with
      | .ok port => .ok port
      | .error .InvalidResponse => resolveLoop inst host rest missing true timed lastIo
      | .error (.PortNotFound _) => resolveLoop inst host rest true invalid timed lastIo
      | .error e => .error e

/-- Embedding of `resolve_instance_port` from db/ssrp.rs.  The resolved browser
addresses and their I/O behaviour are abstracted as the list of per-address
attempt outcomes. -/
def resolve_instance_port (host inst : String) (attempts : List SsrpAttempt) :
    Except SsrpError Nat :=
  resolveLoop inst host attempts false false false none

/-! ## Connection endpoint parsing (db/connection.rs) -/

/-- Error taxonomy of db/connection.rs (`ConnectionError`); `Tiberius` and `Io`
payloads are modelled as display messages (`Io` is spelled `IoErr` because Lean
reserves some suffixes). -/
inductive ConnectionError where
  | Tiberius (msg : String)
  | IoErr (msg : String)
  | Auth (msg : String)
  | InstanceResolution (server inst reason : String)
deriving DecidableEq, Repr

/-- Rust `str::split_once`: split at the first occurrence of the separator. -/
def splitCharsOnce : List Char → Char → Option (List Char × List Char)
  | [], _ => none
  | x :: xs, c =>
    if x = c then some ([], xs)
    else (splitCharsOnce xs c).map (fun p => (x :: p.1, p.2))

/-- String-level `split_once`. -/
def splitOnceStr (s : String) (c : Char) : Option (String × String) :=
  (splitCharsOnce s.toList c).map (fun p => (String.mk p.1, String.mk p.2))

/-- String-level `rsplit_once`: split at the last occurrence of the separator. -/
def rsplitOnceStr (s : String) (c : Char) : Option (String × String) :=
  (splitCharsOnce s.toList.reverse c).map
    (fun p => (String.mk p.2.reverse, String.mk p.1.reverse))

/-- The backslash rule and the default of `parse_server_async` (reached when
neither explicit-port form applied). -/
def parseServerInstance (resolve : String → String → Except SsrpError Nat)
    (server : String) : Except ConnectionError (String × Nat) :=
  match splitOnceStr server '\\' with
  | some (host, inst) =>
    match resolve (trimStr host) (trimStr inst) with
    | .ok port => .ok (trimStr host, port)
    | .error err =>
      .error (.InstanceResolution (trimStr host) (trimStr inst) (ssrpErrMsg err))
  | none => .ok (server, 1433)

/-- The colon rule of `parse_server_async` and everything after it. -/
def parseServerColon (resolve : String → String → Except SsrpError Nat)
    (server : String) : Except ConnectionError (String × Nat) :=
  match rsplitOnceStr server ':' with
  | some (host, port_str) =>
    match parseU16Str (trimStr port_str) with
    | some port => .ok (trimStr host, port)
    | none => parseServerInstance resolve server
  | none => parseServerInstance resolve server

/-- Embedding of `parse_server_async` from db/connection.rs.  The SSRP
resolution performed for named instances is abstracted as the `resolve`
oracle (`resolve_instance_port` applied to the host's attempt outcomes).
The four rules are tried in order: first comma, last colon, first backslash,
default port 1433; an explicit-port rule applies only when its suffix parses
as a `u16`. -/
def parse_server_async (resolve : String → String → Except SsrpError Nat)
    (server : String) : Except ConnectionError (String × Nat) :=
  match splitOnceStr server ',' with
  | some (host, port_str) =>
    match parseU16Str (trimStr port_str) with
    | some port => .ok (trimStr host, port)
    | none => parseServerColon resolve server
  | none => parseServerColon resolve server

/-! ## C5: endpoint-parser rules -/

/-- Does the string contain the character (Rust `str::contains(char)`). -/
def containsChar (s : String) (c : Char) : Bool :=
  s.toList.contains c

/-- Characters strictly before the first occurrence of `c`. -/
def beforeFirst (s : String) (c : Char) : String :=
  String.mk (s.toList.takeWhile (fun x => x ≠ c))

/-- Characters strictly after the first occurrence of `c`. -/
def afterFirst (s : String) (c : Char) : String :=
  String.mk ((s.toList.dropWhile (fun x => x ≠ c)).drop 1)

/-- Characters strictly before the last occurrence of `c`. -/
def beforeLast (s : String) (c : Char) : String :=
  String.mk (((s.toList.reverse.dropWhile (fun x => x ≠ c)).drop 1).reverse)

/-- Characters strictly after the last occurrence of `c`. -/
def afterLast (s : String) (c : Char) : String :=
  String.mk ((s.toList.reverse.takeWhile (fun x => x ≠ c)).reverse)

/-- Modelled from the spec: the four endpoint rules in order, with the port
form amended from the claim's 1–65535 to the code's `u16` range 0–65535:
(1) first comma when the trimmed suffix parses, (2) last colon when the
trimmed suffix parses, (3) first backslash resolved via SSRP, (4) the whole
string with default port 1433. -/
def parse_server_rules (resolve : String → String → Except SsrpError Nat)
    (server : String) : Except ConnectionError (String × Nat) :=
  if containsChar server ',' && (parseU16Str (trimStr (afterFirst server ','))).isSome then
    .ok (trimStr (beforeFirst server ','), (parseU16Str (trimStr (afterFirst server ','))).getD 0)
  else if containsChar server ':' && (parseU16Str (trimStr (afterLast server ':'))).isSome then
    .ok (trimStr (beforeLast server ':'), (parseU16Str (trimStr (afterLast server ':'))).getD 0)
  else if containsChar server '\\' then
    match resolve (trimStr (beforeFirst server '\\')) (trimStr (afterFirst server '\\')) with
    | .ok port => .ok (trimStr (beforeFirst server '\\'), port)
    | .error err =>
      .error (.InstanceResolution (trimStr (beforeFirst server '\\'))
        (trimStr (afterFirst server '\\')) (ssrpErrMsg err))
  else .ok (server, 1433)

theorem containsChar_iff (s : String) (c : Char) :
    containsChar s c = true ↔ c ∈ s.toList := by
  unfold containsChar List.contains
  exact List.elem_iff

theorem splitCharsOnce_eq (cs : List Char) (c : Char) :
    splitCharsOnce cs c =
      if c ∈ cs then
        some (cs.takeWhile (fun x => x ≠ c), (cs.dropWhile (fun x => x ≠ c)).drop 1)
      else none := by
  induction cs with
  | nil => rfl
  | cons x xs ih =>
    by_cases hx : x = c
    · subst hx
      simp [splitCharsOnce, List.takeWhile_cons, List.dropWhile_cons]
    · by_cases hmem : c ∈ xs <;>
        simp [splitCharsOnce, hx, ih, hmem, List.takeWhile_cons, List.dropWhile_cons,
          Ne.symm hx, List.mem_cons]

theorem splitOnceStr_eq (s : String) (c : Char) :
    splitOnceStr s c =
      if containsChar s c then some (beforeFirst s c, afterFirst s c) else none := by
  unfold splitOnceStr beforeFirst afterFirst
  rw [splitCharsOnce_eq]
  by_cases h : c ∈ s.toList
  · simp [show c ∈ s.data from h, (containsChar_iff s c).2 h]
  · have hc : containsChar s c = false := by
      cases hcc : containsChar s c
      · rfl
      · exact absurd ((containsChar_iff s c).1 hcc) h
    simp [show c ∉ s.data from h, hc]

theorem rsplitOnceStr_eq (s : String) (c : Char) :
    rsplitOnceStr s c =
      if containsChar s c then some (beforeLast s c, afterLast s c) else none := by
  unfold rsplitOnceStr beforeLast afterLast
  rw [splitCharsOnce_eq]
  by_cases h : c ∈ s.toList
  · have hr : c ∈ s.data.reverse := List.mem_reverse.2 h
    simp [hr, (containsChar_iff s c).2 h]
  · have hr : c ∉ s.data.reverse := fun hc => h (List.mem_reverse.1 hc)
    have hc : containsChar s c = false := by
      cases hcc : containsChar s c
      · rfl
      · exact absurd ((containsChar_iff s c).1 hcc) h
    simp [hr, hc]

/-- C5 counterexample: the claim requires the comma rule to fire only for ports
in 1–65535, sending `"h,0"` to the default rule and hence to `("h,0", 1433)`;
the code parses the suffix as `u16`, which accepts 0, so `"h,0"` yields
`("h", 0)`. -/
theorem c5_port_zero_counterexample :
    parse_server_async (fun _ _ => .error .Timeout) "h,0" = .ok ("h", 0) ∧
    ("h", (0 : Nat)) ≠ ("h,0", 1433) := by
  exact ⟨by decide, by decide⟩

theorem parseServerInstance_spec (resolve : String → String → Except SsrpError Nat)
    (server : String) :
    parseServerInstance resolve server =
      if containsChar server '\\' then
        match resolve (trimStr (beforeFirst server '\\')) (trimStr (afterFirst server '\\')) with
        | .ok port => .ok (trimStr (beforeFirst server '\\'), port)
        | .error err =>
          .error (.InstanceResolution (trimStr (beforeFirst server '\\'))
            (trimStr (afterFirst server '\\')) (ssrpErrMsg err))
      else .ok (server, 1433) := by
  unfold parseServerInstance
  rw [splitOnceStr_eq]
  by_cases h : containsChar server '\\' <;> simp [h]

/-- C5 (amended): for every server string and resolver behaviour, the endpoint
parser applies the four rules in order exactly as claimed, except that an
explicit-port suffix is accepted whenever it parses as a `u16` (0–65535), not
only for 1–65535. -/
theorem c5_parse_server_rules (resolve : String → String → Except SsrpError Nat)
    (server : String) :
    parse_server_async resolve server = parse_server_rules resolve server := by
  unfold parse_server_async parse_server_rules parseServerColon
  rw [splitOnceStr_eq, rsplitOnceStr_eq]
  by_cases h1 : containsChar server ','
  · simp only [h1, if_true, Bool.true_and]
    cases hp : parseU16Str (trimStr (afterFirst server ',')) with
    | some p => simp [hp]
    | none =>
      simp only [hp, Option.isSome_none, Bool.false_eq_true, if_false]
      by_cases h2 : containsChar server ':'
      · simp only [h2, if_true, Bool.true_and]
        cases hq : parseU16Str (trimStr (afterLast server ':')) with
        | some q => simp [hq]
        | none => simp [hq, parseServerInstance_spec]
      · simp [h2, parseServerInstance_spec]
  · simp only [h1, if_false, Bool.false_and, Bool.false_eq_true]
    by_cases h2 : containsChar server ':'
    · simp only [h2, if_true, Bool.true_and]
      cases hq : parseU16Str (trimStr (afterLast server ':')) with
      | some q => simp [hq]
      | none => simp [hq, parseServerInstance_spec]
    · simp [h2, parseServerInstance_spec]

/-! ## C6: SSRP response parsing -/

/-- C6 counterexample: a datagram of exactly 3 bytes with a `0x05` header is
within the claim's "at most 3 bytes ⇒ InvalidResponse" but the code only
rejects datagrams of fewer than 3 bytes (`data.len() < 3`), so it scans the
empty payload and reports `PortNotFound` instead. -/
theorem c6_three_byte_datagram_counterexample :
    ([5, 0, 0] : List Nat).length ≤ 3 ∧ ([5, 0, 0] : List Nat).headD 0 = 0x05 ∧
    parse_ssrp_response [5, 0, 0] "INST" = .error (.PortNotFound "INST") ∧
    SsrpError.PortNotFound "INST" ≠ SsrpError.InvalidResponse := by
  refine ⟨by decide, by decide, by decide, by decide⟩

/-- C6 (amended): full characterisation of `parse_ssrp_response`.
`InvalidResponse` is returned exactly when the datagram has fewer than 3 bytes
(not "at most 3"), or its first byte is not `0x05`, or the token following the
first case-insensitive `tcp` key fails to parse as a `u16`; `PortNotFound` is
returned exactly when the header is valid but no `tcp` pair exists; and the
port of the first `tcp` pair is returned otherwise. -/
theorem c6_parse_ssrp_characterisation (data : List Nat) (inst : String) :
    (parse_ssrp_response data inst = .error .InvalidResponse ↔
      (data.length < 3 ∨ data.headD 0 ≠ 0x05 ∨
        ∃ tok, findTcpValue (splitOnByte (data.drop 3) 59 []) = some tok ∧
          parseU16Bytes tok = none))
    ∧ (parse_ssrp_response data inst = .error (.PortNotFound inst) ↔
      (3 ≤ data.length ∧ data.headD 0 = 0x05 ∧
        findTcpValue (splitOnByte (data.drop 3) 59 []) = none))
    ∧ (∀ p, parse_ssrp_response data inst = .ok p ↔
      (3 ≤ data.length ∧ data.headD 0 = 0x05 ∧
        ∃ tok, findTcpValue (splitOnByte (data.drop 3) 59 []) = some tok ∧
          parseU16Bytes tok = some p)) := by
  by_cases h : data.length < 3 ∨ data.headD 0 ≠ 0x05
  · have hres : parse_ssrp_response data inst = .error .InvalidResponse := by
      unfold parse_ssrp_response
      rw [if_pos h]
    refine ⟨?_, ?_, ?_⟩
    · rw [hres]
      exact ⟨fun _ => h.elim Or.inl (fun hh => Or.inr (Or.inl hh)), fun _ => rfl⟩
    · rw [hres]
      constructor
      · intro he
        injection he with h2
        exact SsrpError.noConfusion h2
      · rintro ⟨h1, h2, _⟩
        rcases h with hh | hh
        · omega
        · exact absurd h2 hh
    · intro p
      rw [hres]
      constructor
      · intro he
        exact Except.noConfusion he
      · rintro ⟨h1, h2, _⟩
        rcases h with hh | hh
        · omega
        · exact absurd h2 hh
  · have hsplit : ¬data.length < 3 ∧ data.headD 0 = 0x05 := by
      constructor
      · intro hlt
        exact h (Or.inl hlt)
      · by_contra hne
        exact h (Or.inr hne)
    obtain ⟨h1, h2⟩ := hsplit
    cases hf : findTcpValue (splitOnByte (data.drop 3) 59 []) with
    | none =>
      have hres : parse_ssrp_response data inst = .error (.PortNotFound inst) := by
        unfold parse_ssrp_response
        rw [if_neg h, hf]
      refine ⟨?_, ?_, ?_⟩
      · rw [hres]
        constructor
        · intro he
          injection he with he2
          exact SsrpError.noConfusion he2
        · rintro (hh | hh | ⟨tok, htok, _⟩)
          · omega
          · exact absurd h2 hh
          · exact Option.noConfusion htok
      · rw [hres]
        exact ⟨fun _ => ⟨by omega, h2, rfl⟩, fun _ => rfl⟩
      · intro p
        rw [hres]
        constructor
        · intro he
          exact Except.noConfusion he
        · rintro ⟨_, _, tok, htok, _⟩
          exact Option.noConfusion htok
    | some tok =>
      cases hp : parseU16Bytes tok with
      | none =>
        have hres : parse_ssrp_response data inst = .error .InvalidResponse := by
          unfold parse_ssrp_response
          rw [if_neg h]
          simp only [hf, hp]
        refine ⟨?_, ?_, ?_⟩
        · rw [hres]
          exact ⟨fun _ => Or.inr (Or.inr ⟨tok, rfl, hp⟩), fun _ => rfl⟩
        · rw [hres]
          constructor
          · intro he
            injection he with he2
            exact SsrpError.noConfusion he2
          · rintro ⟨_, _, hnone⟩
            exact Option.noConfusion hnone
        · intro p
          rw [hres]
          constructor
          · intro he
            exact Except.noConfusion he
          · rintro ⟨_, _, tok2, htok2, hp2⟩
            injection htok2 with he3
            rw [← he3, hp] at hp2
            exact Option.noConfusion hp2
      | some q =>
        have hres : parse_ssrp_response data inst = .ok q := by
          unfold parse_ssrp_response
          rw [if_neg h]
          simp only [hf, hp]
        refine ⟨?_, ?_, ?_⟩
        · rw [hres]
          constructor
          · intro he
            exact Except.noConfusion he
          · rintro (hh | hh | ⟨tok2, htok2, hp2⟩)
            · omega
            · exact absurd h2 hh
            · injection htok2 with he3
              rw [← he3, hp] at hp2
              exact Option.noConfusion hp2
        · rw [hres]
          constructor
          · intro he
            exact Except.noConfusion he
          · rintro ⟨_, _, hnone⟩
            exact Option.noConfusion hnone
        · intro p
          rw [hres]
          constructor
          · intro he
            injection he with he2
            exact ⟨by omega, h2, tok, rfl, by rw [hp, he2]⟩
          · rintro ⟨_, _, tok2, htok2, hp2⟩
            injection htok2 with he3
            rw [← he3, hp] at hp2
            injection hp2 with he4
            rw [he4]

/-! ## C7: most-specific failure across SSRP attempts -/

/-- Severity classes of `SsrpError`, ordered by the precedence the resolver's
final failure chain implements. -/
inductive FailKind where
  | portK
  | invalidK
  | timeoutK
  | ioK
  | hostK
deriving DecidableEq, Repr

/-- Numeric severity: `PortNotFound` > `InvalidResponse` > `Timeout` > `Io` >
`HostResolution`. -/
def sev : FailKind → Nat
  | .portK => 5
  | .invalidK => 4
  | .timeoutK => 3
  | .ioK => 2
  | .hostK => 1

/-- The severity class of an error. -/
def errKind : SsrpError → FailKind
  | .HostResolution _ => .hostK
  | .Timeout => .timeoutK
  | .InvalidResponse => .invalidK
  | .PortNotFound _ => .portK
  | .IoErr _ => .ioK

/-- The failure class one attempt contributes, `none` when the attempt
succeeds (a datagram whose parse yields a port). -/
def attemptFailKind (inst : String) : SsrpAttempt → Option FailKind
  | .bindErr _ => some .ioK
  | .sendErr _ => some .ioK
  | .recvErr _ => some .ioK
  | .timedOut => some .timeoutK
  | .datagram d =>
    match parse_ssrp_response d inst with
    | .ok _ => none
    | .error e => some (errKind e)

/-- Take the more severe of an accumulated best and a new failure class. -/
def maxCombine (o : Option FailKind) (k : FailKind) : FailKind :=
  match o with
  | none => k
  | some k' => if sev k' < sev k then k else k'

/-- The most severe class in a list of failure classes. -/
def bestKind (l : List FailKind) : Option FailKind :=
  l.foldl (fun o k => some (maxCombine o k)) none

/-- The failure class recorded by the loop's retained flags, by the priority
of the final precedence chain. -/
def stateBest (missing invalid timed : Bool) (lastIo : Option String) :
    Option FailKind :=
  if missing then some .portK
  else if invalid then some .invalidK
  else if timed then some .timeoutK
  else if lastIo.isSome then some .ioK
  else none

theorem parse_ssrp_shape (d : List Nat) (inst : String) :
    (∃ p, parse_ssrp_response d inst = .ok p) ∨
    parse_ssrp_response d inst = .error .InvalidResponse ∨
    parse_ssrp_response d inst = .error (.PortNotFound inst) := by
  by_cases h : d.length < 3 ∨ d.headD 0 ≠ 0x05
  · right
    left
    unfold parse_ssrp_response
    rw [if_pos h]
  · unfold parse_ssrp_response
    rw [if_neg h]
    cases hf : findTcpValue (splitOnByte (d.drop 3) 59 []) with
    | none =>
      right
      right
      rfl
    | some tok =>
      cases hp : parseU16Bytes tok with
      | none =>
        right
        left
        simp only [hp]
      | some q =>
        left
        refine ⟨q, ?_⟩
        simp only [hp]

theorem stateBest_io (m i t : Bool) (io : Option String) (msg : String) :
    stateBest m i t (some msg) = some (maxCombine (stateBest m i t io) .ioK) := by
  cases m <;> cases i <;> cases t <;> cases io <;> rfl

theorem stateBest_timeout (m i t : Bool) (io : Option String) :
    stateBest m i true io = some (maxCombine (stateBest m i t io) .timeoutK) := by
  cases m <;> cases i <;> cases t <;> cases io <;> rfl

theorem stateBest_invalid (m i t : Bool) (io : Option String) :
    stateBest m true t io = some (maxCombine (stateBest m i t io) .invalidK) := by
  cases m <;> cases i <;> cases t <;> cases io <;> rfl

theorem stateBest_missing (m i t : Bool) (io : Option String) :
    stateBest true i t io = some (maxCombine (stateBest m i t io) .portK) := by
  cases m <;> cases i <;> cases t <;> cases io <;> rfl

theorem resolveLoop_final (inst host : String) (m i t : Bool) (io : Option String) :
    ∃ e, resolveLoop inst host [] m i t io = .error e ∧
      errKind e = (stateBest m i t io).getD .hostK := by
  cases m <;> cases i <;> cases t <;> cases io <;> exact ⟨_, rfl, rfl⟩

theorem resolveLoop_allfail (inst host : String) (attempts : List SsrpAttempt) :
    ∀ (m i t : Bool) (io : Option String),
      (∀ a ∈ attempts, (attemptFailKind inst a).isSome = true) →
      ∃ e, resolveLoop inst host attempts m i t io = .error e ∧
        errKind e = ((attempts.filterMap (attemptFailKind inst)).foldl
          (fun o k => some (maxCombine o k)) (stateBest m i t io)).getD .hostK := by
  induction attempts with
  | nil =>
    intro m i t io _
    simpa using resolveLoop_final inst host m i t io
  | cons a rest ih =>
    intro m i t io hall
    have hrest : ∀ x ∈ rest, (attemptFailKind inst x).isSome = true := by
      intro x hx
      exact hall x (List.mem_cons_of_mem a hx)
    have ha : (attemptFailKind inst a).isSome = true := hall a (List.mem_cons_self a rest)
    cases a with
    | bindErr msg =>
      obtain ⟨e, he, hk⟩ := ih m i t (some msg) hrest
      refine ⟨e, he, ?_⟩
      rw [hk]
      simp only [List.filterMap_cons, attemptFailKind, List.foldl_cons]
      rw [stateBest_io m i t io msg]
    | sendErr msg =>
      obtain ⟨e, he, hk⟩ := ih m i t (some msg) hrest
      refine ⟨e, he, ?_⟩
      rw [hk]
      simp only [List.filterMap_cons, attemptFailKind, List.foldl_cons]
      rw [stateBest_io m i t io msg]
    | recvErr msg =>
      obtain ⟨e, he, hk⟩ := ih m i t (some msg) hrest
      refine ⟨e, he, ?_⟩
      rw [hk]
      simp only [List.filterMap_cons, attemptFailKind, List.foldl_cons]
      rw [stateBest_io m i t io msg]
    | timedOut =>
      obtain ⟨e, he, hk⟩ := ih m i true io hrest
      refine ⟨e, he, ?_⟩
      rw [hk]
      simp only [List.filterMap_cons, attemptFailKind, List.foldl_cons]
      rw [stateBest_timeout m i t io]
    | datagram d =>
      rcases parse_ssrp_shape d inst with ⟨p, hp⟩ | hp | hp
      · exfalso
        rw [attemptFailKind, hp] at ha
        simp at ha
      · obtain ⟨e, he, hk⟩ := ih m true t io hrest
        refine ⟨e, ?_, ?_⟩
        · rw [resolveLoop, hp]
          exact he
        · rw [hk]
          simp only [List.filterMap_cons, attemptFailKind, hp, List.foldl_cons, errKind]
          rw [stateBest_invalid m i t io]
      · obtain ⟨e, he, hk⟩ := ih true i t io hrest
        refine ⟨e, ?_, ?_⟩
        · rw [resolveLoop, hp]
          exact he
        · rw [hk]
          simp only [List.filterMap_cons, attemptFailKind, hp, List.foldl_cons, errKind]
          rw [stateBest_missing m i t io]

theorem foldl_maxCombine_isSome (l : List FailKind) (x : FailKind) :
    (l.foldl (fun o k => some (maxCombine o k)) (some x)).isSome = true := by
  induction l generalizing x with
  | nil => rfl
  | cons k rest ih => simpa [List.foldl_cons] using ih (maxCombine (some x) k)

/-- C7 (confirmed): when every attempted address fails, `resolve_instance_port`
returns, after exhausting all addresses, an error whose class is the most
severe observed across the attempts, under the precedence
`PortNotFound` > `InvalidResponse` > `Timeout` > `Io` > `HostResolution`. -/
theorem c7_most_specific_failure (host inst : String)
    (attempts : List SsrpAttempt) (hne : attempts ≠ [])
    (hall : ∀ a ∈ attempts, (attemptFailKind inst a).isSome = true) :
    ∃ e, resolve_instance_port host inst attempts = .error e ∧
      some (errKind e) = bestKind (attempts.filterMap (attemptFailKind inst)) := by
  obtain ⟨e, he, hk⟩ :=
    resolveLoop_allfail inst host attempts false false false none hall
  refine ⟨e, he, ?_⟩
  have hsb : stateBest false false false none = none := rfl
  rw [hsb] at hk
  cases attempts with
  | nil => exact absurd rfl hne
  | cons a rest =>
    have ha : (attemptFailKind inst a).isSome = true :=
      hall a (List.mem_cons_self a rest)
    obtain ⟨k, hak⟩ := Option.isSome_iff_exists.1 ha
    unfold bestKind
    rw [List.filterMap_cons, hak] at hk ⊢
    rw [List.foldl_cons] at hk ⊢
    have hs := foldl_maxCombine_isSome (rest.filterMap (attemptFailKind inst))
      (maxCombine none k)
    obtain ⟨b, hb⟩ := Option.isSome_iff_exists.1 hs
    rw [hb] at hk ⊢
    rw [hk]
    rfl

/-- C7 witness: a timeout followed by a malformed datagram yields, after both
addresses are exhausted, the more specific `InvalidResponse`. -/
theorem c7_most_specific_failure_witness :
    ∃ e, resolve_instance_port "h" "I" [.timedOut, .datagram [4]] = .error e ∧
      some (errKind e) =
        bestKind ([SsrpAttempt.timedOut, .datagram [4]].filterMap (attemptFailKind "I")) :=
  c7_most_specific_failure "h" "I" [.timedOut, .datagram [4]] (by decide) (by decide)

/-! ## Reference extractor (db/schema_loader.rs, extract_table_references)

The five patterns share one shape: one or two keywords, each followed by
mandatory whitespace, then an object name
`(?:\[?(\w+)\]?\.)?\[?(\w+)\]?` with an optional schema qualifier.
The matcher below reproduces the leftmost, greedy-with-backtracking semantics
of the Rust regex crate for that shape over ASCII text (the only backtracking
the shape admits: if the greedy schema-qualifier attempt fails, the optional
group matches empty, because shortening a maximal `\w+` run can never make a
following `\]` or `\.` match). -/

/-- Match a literal keyword (given lowercase) case-insensitively, returning the
remaining characters. -/
def matchLit : List Char → List Char → Option (List Char)
  | [], cs => some cs
  | _ :: _, [] => none
  | p :: ps, c :: cs => if asciiLower c = p then matchLit ps cs else none

/-- Match the regex `\s+`: at least one whitespace character, greedily. -/
def skipWs1 : List Char → Option (List Char)
  | [] => none
  | c :: rest => if isWs c then some (rest.dropWhile isWs) else none

/-- Match the keyword sequence of a pattern: every keyword is followed by
mandatory whitespace (`FROM\s+`, `INSERT\s+INTO\s+`, ...). -/
def matchSeqKws : List String → List Char → Option (List Char)
  | [], cs => some cs
  | k :: ks, cs =>
    match matchLit k.toList cs with
    | some r1 =>
      match skipWs1 r1 with
      | some r2 => matchSeqKws ks r2
      | none => none
    | none => none

/-- Match `\[?(\w+)\]?` (no schema qualifier): optional opening bracket, a
maximal word run (at least one character), optional closing bracket. -/
def nameNoSchema (cs : List Char) : Option (List Char × List Char) :=
  let cs1 := match cs with
    | '[' :: r => r
    | _ => cs
  let w := cs1.takeWhile isWordChar
  let r := cs1.dropWhile isWordChar
  if w = [] then none
  else
    let r2 := match r with
      | ']' :: rr => rr
      | _ => r
    some (w, r2)

/-- Match `(?:\[?(\w+)\]?\.)?\[?(\w+)\]?`: first try the greedy
schema-qualified alternative, else the optional group matches empty.  Returns
(schema capture, name capture, rest). -/
def namePart (cs : List Char) : Option (Option (List Char) × List Char × List Char) :=
  let cs1 := match cs with
    | '[' :: r => r
    | _ => cs
  let w1 := cs1.takeWhile isWordChar
  let r1 := cs1.dropWhile isWordChar
  let attempt : Option (Option (List Char) × List Char × List Char) :=
    if w1 = [] then none
    else
      let r2 := match r1 with
        | ']' :: rr => rr
        | _ => r1
      match r2 with
      | '.' :: r3 =>
        match nameNoSchema r3 with
        | some (w2, r4) => some (some w1, w2, r4)
        | none => none
      | _ => none
  match attempt with
  | some res => some res
  | none =>
    match nameNoSchema cs with
    | some (w2, r2) => some (none, w2, r2)
    | none => none

/-- Try one pattern match at the current position: keywords, then the name
part.  Returns the capture pair and the remaining characters. -/
def matchAt (kws : List String) (cs : List Char) :
    Option ((Option String × String) × List Char) :=
  match matchSeqKws kws cs with
  | some r =>
    match namePart r with
    | some (os, w, rest) => some ((os.map (fun l => String.mk l), String.mk w), rest)
    | none => none
  | none => none

/-- The scan of `captures_iter`: at each position with a word boundary before
it, try the pattern; on a match, emit the capture and resume after the match
(matches never overlap); otherwise advance one character.  `fuel` bounds the
recursion (every step consumes at least one character). -/
def scanAux (kws : List String) : Nat → List Char → Option Char →
    List (Option String × String)
  | 0, _, _ => []
  | _ + 1, [], _ => []
  | fuel + 1, c :: rest, prev =>
    let boundaryOk := match prev with
      | none => true
      | some p => !(isWordChar p)
    if boundaryOk then
      match matchAt kws (c :: rest) with
      | some (cap, after) =>
        let consumed := (c :: rest).length - after.length
        cap :: scanAux kws fuel after ((c :: rest).get? (consumed - 1))
      | none => scanAux kws fuel rest (some c)
    else scanAux kws fuel rest (some c)

/-- All captures of one pattern over a definition text, leftmost first. -/
def scanPattern (kws : List String) (s : String) : List (Option String × String) :=
  scanAux kws (s.toList.length + 1) s.toList none

/-- Captures of the two READ_PATTERNS (`FROM`, `JOIN`), pattern-major as the
Rust loop iterates them. -/
def readCaptures (s : String) : List (Option String × String) :=
  scanPattern ["from"] s ++ scanPattern ["join"] s

/-- Captures of the three WRITE_PATTERNS (`INSERT INTO`, `UPDATE`,
`DELETE FROM`), pattern-major. -/
def writeCaptures (s : String) : List (Option String × String) :=
  scanPattern ["insert", "into"] s ++ scanPattern ["update"] s ++
    scanPattern ["delete", "from"] s

/-- First-match lookup in an association list (the model of `HashMap::get`;
keys are unique because insertion overwrites). -/
def lookupAssoc {α : Type} : List (String × α) → String → Option α
  | [], _ => none
  | (k, v) :: rest, key => if k = key then some v else lookupAssoc rest key

/-- The lookup key formed from a capture: `schema.name` or bare `name`,
lowercased. -/
def captureKey (cap : Option String × String) : String :=
  match cap.1 with
  | some s => strLower (s ++ "." ++ cap.2)
  | none => strLower cap.2

/-- `HashSet::insert` on the model: append if absent. -/
def insertDedup (l : List String) (x : String) : List String :=
  if x ∈ l then l else l ++ [x]

/-- Fold the captures of some patterns into a reference set: resolve each
capture's key against the name index and insert the canonical id if found. -/
def addRefs (idx : List (String × String))
    (caps : List (Option String × String)) (acc : List String) : List String :=
  caps.foldl (fun acc cap =>
    match lookupAssoc idx (captureKey cap) with
    | some i => insertDedup acc i
    | none => acc) acc

/-- Embedding of `extract_table_references` from db/schema_loader.rs: empty
definition short-circuits; otherwise the read patterns populate the read set
and the write patterns the write set. -/
def extract_table_references (definition : String)
    (name_to_id : List (String × String)) : List String × List String :=
  if definition = "" then ([], [])
  else
    (addRefs name_to_id (readCaptures definition) [],
     addRefs name_to_id (writeCaptures definition) [])

/-! ## Schema data model (types/schema.rs) -/

/-- Error taxonomy of db/schema_loader.rs (`SchemaError`); the wrapped
`odbc_api::Error` is modelled by its display message. -/
inductive SchemaError where
  | Odbc (msg : String)
  | Parse (msg : String)
deriving DecidableEq, Repr

structure Column where
  name : String
  data_type : String
  is_nullable : Bool
  is_primary_key : Bool
  source_table : Option String
  source_column : Option String
deriving DecidableEq, Repr

structure TableNode where
  id : String
  name : String
  schema : String
  columns : List Column
deriving DecidableEq, Repr

structure ViewNode where
  id : String
  name : String
  schema : String
  columns : List Column
  definition : String
  referenced_tables : List String
deriving DecidableEq, Repr

structure RelationshipEdge where
  id : String
  «from» : String
  «to» : String
  from_column : String
  to_column : String
deriving DecidableEq, Repr

structure ProcedureParameter where
  name : String
  data_type : String
  is_output : Bool
deriving DecidableEq, Repr

structure Trigger where
  id : String
  name : String
  schema : String
  table_id : String
  trigger_type : String
  is_disabled : Bool
  fires_on_insert : Bool
  fires_on_update : Bool
  fires_on_delete : Bool
  definition : String
  referenced_tables : List String
  affected_tables : List String
deriving DecidableEq, Repr

structure StoredProcedure where
  id : String
  name : String
  schema : String
  procedure_type : String
  parameters : List ProcedureParameter
  definition : String
  referenced_tables : List String
  affected_tables : List String
deriving DecidableEq, Repr

structure ScalarFunction where
  id : String
  name : String
  schema : String
  function_type : String
  parameters : List ProcedureParameter
  return_type : String
  definition : String
  referenced_tables : List String
  affected_tables : List String
deriving DecidableEq, Repr

structure SchemaGraph where
  tables : List TableNode
  views : List ViewNode
  relationships : List RelationshipEdge
  triggers : List Trigger
  stored_procedures : List StoredProcedure
  scalar_functions : List ScalarFunction
deriving DecidableEq, Repr

/-! ## Row streamer and schema loader (db/schema_loader.rs)

A result row is the list of its text cells; a cell is `none` when the buffer
has no value at that position or it is not valid UTF-8 (`TextRowSet::at`
composed with `str::from_utf8`).  A query outcome is: the `execute` call
fails, it yields no cursor, or it yields a cursor streaming some rows and then
possibly failing mid-stream at a `fetch` boundary. -/

/-- One fetched row: positional optional text cells. -/
abbrev Row := List (Option String)

/-- Outcome of running one catalog query on the connection. -/
inductive QResult (ρ : Type) where
  | execErr (e : SchemaError)
  | noCursor
  | rows (rs : List ρ) (fetchErr : Option SchemaError)
deriving DecidableEq, Repr

/-- The seven catalog query outcomes one live connection serves. -/
structure Conn where
  tablesQ : QResult Row
  viewsQ : QResult Row
  viewSrcQ : QResult Row
  fkQ : QResult Row
  trigQ : QResult Row
  procQ : QResult Row
  funcQ : QResult Row
deriving DecidableEq, Repr

/-- Embedding of `get_string_column`. -/
def get_string_column (row : Row) (col : Nat) : Except SchemaError String :=
  match row.getD col none with
  | some s => .ok s
  | none => .error (.Parse ("Failed to get string at column " ++ toString col))

/-- Embedding of `get_i16_column`. -/
def get_i16_column (row : Row) (col : Nat) : Except SchemaError Int := do
  let s ← get_string_column row col
  match parseI16Str s with
  | some n => pure n
  | none => .error (.Parse ("Failed to parse i16 from " ++ s))

/-- Embedding of `get_u8_column`. -/
def get_u8_column (row : Row) (col : Nat) : Except SchemaError Nat := do
  let s ← get_string_column row col
  match parseU8Str s with
  | some n => pure n
  | none => .error (.Parse ("Failed to parse u8 from " ++ s))

/-- Rust `str::eq_ignore_ascii_case`. -/
def strEqIgnoreAsciiCase (a b : String) : Bool :=
  a.toList.map asciiLower == b.toList.map asciiLower

/-- Embedding of `get_bool_column`. -/
def get_bool_column (row : Row) (col : Nat) : Except SchemaError Bool := do
  let s ← get_string_column row col
  pure (s == "1" || strEqIgnoreAsciiCase s "true")

/-- Process delivered rows in order, stopping at the first row-level error
(the body of the `while let ... fetch()` loop). -/
def foldRowsE {σ : Type} (step : σ → Row → Except SchemaError σ) :
    σ → List Row → Except SchemaError σ
  | s, [] => .ok s
  | s, r :: rs =>
    match step s r with
    | .ok s2 => foldRowsE step s2 rs
    | .error e => .error e

/-- Run one query: propagate the `execute` error, treat a missing cursor as an
empty run, process all delivered rows, then propagate the mid-stream `fetch`
error if the stream ended in one. -/
def runRows {σ : Type} (q : QResult Row) (init : σ)
    (step : σ → Row → Except SchemaError σ) : Except SchemaError σ :=
  match q with
  | .execErr e => .error e
  | .noCursor => .ok init
  | .rows rs fe =>
    match foldRowsE step init rs with
    | .error e => .error e
    | .ok s =>
      match fe with
      | some e => .error e
      | none => .ok s

/-- `HashMap::entry(k).or_insert_with(init)` followed by a mutation `f` of the
entry, on the insertion-ordered association-list model. -/
def updateEntry {α : Type} : List (String × α) → String → α → (α → α) →
    List (String × α)
  | [], k, init, f => [(k, f init)]
  | (k2, v) :: rest, k, init, f =>
    if k2 = k then (k2, f v) :: rest
    else (k2, v) :: updateEntry rest k init f

/-- `HashMap::insert` (overwrite-or-append). -/
def mapInsert {α : Type} (m : List (String × α)) (k : String) (v : α) :
    List (String × α) :=
  updateEntry m k v (fun _ => v)

/-- Per-row body of `load_tables_and_columns`. -/
def tableRowStep (m : List (String × TableNode)) (row : Row) :
    Except SchemaError (List (String × TableNode)) := do
  let schema_name ← get_string_column row 0
  let table_name ← get_string_column row 1
  let column_name ← get_string_column row 2
  let data_type ← get_string_column row 3
  let max_length ← get_i16_column row 4
  let precision ← get_u8_column row 5
  let scale ← get_u8_column row 6
  let is_nullable ← get_bool_column row 7
  let is_primary_key ← get_bool_column row 8
  let table_id := schema_name ++ "." ++ table_name
  let formatted_type := format_data_type data_type max_length precision scale
  let column : Column :=
    { name := column_name, data_type := formatted_type,
      is_nullable := is_nullable, is_primary_key := is_primary_key,
      source_table := none, source_column := none }
  let init : TableNode :=
    { id := table_id, name := table_name, schema := schema_name, columns := [] }
  pure (updateEntry m table_id init
    (fun t => { t with columns := t.columns ++ [column] }))

/-- Embedding of `load_tables_and_columns`. -/
def load_tables_and_columns (q : QResult Row) :
    Except SchemaError (List TableNode) :=
  (runRows q [] tableRowStep).map (fun m => m.map (fun p => p.2))

/-- Per-row body of `load_views_and_columns` (the map entry keeps the pair of
the node and the definition captured at entry creation, as in the source). -/
def viewRowStep (m : List (String × (ViewNode × String))) (row : Row) :
    Except SchemaError (List (String × (ViewNode × String))) := do
  let schema_name ← get_string_column row 0
  let view_name ← get_string_column row 1
  let column_name ← get_string_column row 2
  let data_type ← get_string_column row 3
  let max_length ← get_i16_column row 4
  let precision ← get_u8_column row 5
  let scale ← get_u8_column row 6
  let is_nullable ← get_bool_column row 7
  let definition := (get_string_column row 8).toOption.getD ""
  let view_id := schema_name ++ "." ++ view_name
  let formatted_type := format_data_type data_type max_length precision scale
  let column : Column :=
    { name := column_name, data_type := formatted_type,
      is_nullable := is_nullable, is_primary_key := false,
      source_table := none, source_column := none }
  let initNode : ViewNode :=
    { id := view_id, name := view_name, schema := schema_name, columns := [],
      definition := definition, referenced_tables := [] }
  pure (updateEntry m view_id (initNode, definition)
    (fun p => ({ p.1 with columns := p.1.columns ++ [column] }, p.2)))

/-- Embedding of `load_views_and_columns`. -/
def load_views_and_columns (q : QResult Row) :
    Except SchemaError (List ViewNode) :=
  (runRows q [] viewRowStep).map (fun m => m.map (fun p => p.2.1))

/-- Per-row body of `load_view_column_sources`: build the nested map
view id → column name → (source table, source column). -/
def viewSourceRowStep (m : List (String × List (String × (String × String))))
    (row : Row) :
    Except SchemaError (List (String × List (String × (String × String)))) := do
  let view_schema ← get_string_column row 0
  let view_name ← get_string_column row 1
  let view_column ← get_string_column row 2
  let source_table ← get_string_column row 3
  let source_column ← get_string_column row 4
  let view_id := view_schema ++ "." ++ view_name
  pure (updateEntry m view_id []
    (fun inner => mapInsert inner view_column (source_table, source_column)))

/-- The application phase of `load_view_column_sources`: set
`source_table`/`source_column` on every view column matched by name. -/
def applyViewSources (sources : List (String × List (String × (String × String))))
    (views : List ViewNode) : List ViewNode :=
  views.map (fun v =>
    match lookupAssoc sources v.id with
    | none => v
    | some vs =>
      { v with columns := v.columns.map (fun c =>
          match lookupAssoc vs c.name with
          | some st_sc =>
            { c with source_table := some st_sc.1, source_column := some st_sc.2 }
          | none => c) })

/-- Embedding of `load_view_column_sources`: any query failure (including
mid-stream) propagates and no enrichment is applied; on success the
accumulated sources are applied to the views. -/
def load_view_column_sources (q : QResult Row) (views : List ViewNode) :
    Except SchemaError (List ViewNode) :=
  (runRows q [] viewSourceRowStep).map (fun sources => applyViewSources sources views)

/-- Embedding of `load_views_with_references`: views only read, so only the
read set is kept. -/
def load_views_with_references (views : List ViewNode)
    (name_to_id : List (String × String)) : List ViewNode :=
  views.map (fun v =>
    { v with referenced_tables := (extract_table_references v.definition name_to_id).1 })

/-- Per-row body of `load_foreign_keys`: every row is emitted verbatim as an
edge; there is no validation of the endpoints against loaded tables. -/
def fkRowStep (acc : List RelationshipEdge) (row : Row) :
    Except SchemaError (List RelationshipEdge) := do
  let fk_name ← get_string_column row 0
  let src_schema ← get_string_column row 1
  let src_table ← get_string_column row 2
  let src_column ← get_string_column row 3
  let ref_schema ← get_string_column row 4
  let ref_table ← get_string_column row 5
  let ref_column ← get_string_column row 6
  let edge : RelationshipEdge :=
    { id := fk_name,
      «from» := src_schema ++ "." ++ src_table,
      «to» := ref_schema ++ "." ++ ref_table,
      from_column := src_column, to_column := ref_column }
  pure (acc ++ [edge])

/-- Embedding of `load_foreign_keys`. -/
def load_foreign_keys (q : QResult Row) :
    Except SchemaError (List RelationshipEdge) :=
  runRows q [] fkRowStep

/-- Per-row body of `load_triggers`. -/
def triggerRowStep (name_to_id : List (String × String)) (acc : List Trigger)
    (row : Row) : Except SchemaError (List Trigger) := do
  let schema_name ← get_string_column row 0
  let table_name ← get_string_column row 1
  let trigger_name ← get_string_column row 2
  let trigger_type ← get_string_column row 3
  let is_disabled ← get_bool_column row 4
  let fires_on_insert ← get_bool_column row 5
  let fires_on_update ← get_bool_column row 6
  let fires_on_delete ← get_bool_column row 7
  let definition := (get_string_column row 8).toOption.getD ""
  let table_id := schema_name ++ "." ++ table_name
  let trigger_id := schema_name ++ "." ++ table_name ++ "." ++ trigger_name
  let refs := extract_table_references definition name_to_id
  let trig : Trigger :=
    { id := trigger_id, name := trigger_name, schema := schema_name,
      table_id := table_id, trigger_type := trigger_type,
      is_disabled := is_disabled, fires_on_insert := fires_on_insert,
      fires_on_update := fires_on_update, fires_on_delete := fires_on_delete,
      definition := definition, referenced_tables := refs.1,
      affected_tables := refs.2 }
  pure (acc ++ [trig])

/-- Embedding of `load_triggers`. -/
def load_triggers (q : QResult Row) (name_to_id : List (String × String)) :
    Except SchemaError (List Trigger) :=
  runRows q [] (triggerRowStep name_to_id)

/-- Per-row body of `load_stored_procedures`: the optional parameter columns
default on failure; a parameter is pushed only when its name is nonempty (the
LEFT-JOIN placeholder row of a parameterless procedure contributes nothing). -/
def procRowStep (name_to_id : List (String × String))
    (m : List (String × StoredProcedure)) (row : Row) :
    Except SchemaError (List (String × StoredProcedure)) := do
  let schema_name ← get_string_column row 0
  let procedure_name ← get_string_column row 1
  let procedure_type ← get_string_column row 2
  let parameter_name := (get_string_column row 3).toOption.getD ""
  let parameter_type := (get_string_column row 4).toOption.getD ""
  let is_output := (get_bool_column row 5).toOption.getD false
  let definition := (get_string_column row 6).toOption.getD ""
  let procedure_id := schema_name ++ "." ++ procedure_name
  let refs := extract_table_references definition name_to_id
  let init : StoredProcedure :=
    { id := procedure_id, name := procedure_name,
      schema := schema_name, procedure_type := procedure_type, parameters := [],
      definition := definition, referenced_tables := refs.1,
      affected_tables := refs.2 }
  pure (updateEntry m procedure_id init (fun p =>
    if parameter_name ≠ "" then
      { p with parameters := p.parameters ++
          [{ name := parameter_name, data_type := parameter_type,
             is_output := is_output }] }
    else p))

/-- Embedding of `load_stored_procedures`. -/
def load_stored_procedures (q : QResult Row)
    (name_to_id : List (String × String)) :
    Except SchemaError (List StoredProcedure) :=
  (runRows q [] (procRowStep name_to_id)).map (fun m => m.map (fun p => p.2))

/-- Per-row body of `load_scalar_functions` (same parameter handling as the
procedure loader, plus the return type at column 6, definition at column 7). -/
def funcRowStep (name_to_id : List (String × String))
    (m : List (String × ScalarFunction)) (row : Row) :
    Except SchemaError (List (String × ScalarFunction)) := do
  let schema_name ← get_string_column row 0
  let function_name ← get_string_column row 1
  let function_type ← get_string_column row 2
  let parameter_name := (get_string_column row 3).toOption.getD ""
  let parameter_type := (get_string_column row 4).toOption.getD ""
  let is_output := (get_bool_column row 5).toOption.getD false
  let return_type := (get_string_column row 6).toOption.getD ""
  let definition := (get_string_column row 7).toOption.getD ""
  let function_id := schema_name ++ "." ++ function_name
  let refs := extract_table_references definition name_to_id
  let init : ScalarFunction :=
    { id := function_id, name := function_name,
      schema := schema_name, function_type := function_type, parameters := [],
      return_type := return_type, definition := definition,
      referenced_tables := refs.1, affected_tables := refs.2 }
  pure (updateEntry m function_id init (fun f =>
    if parameter_name ≠ "" then
      { f with parameters := f.parameters ++
          [{ name := parameter_name, data_type := parameter_type,
             is_output := is_output }] }
    else f))

/-- Embedding of `load_scalar_functions`. -/
def load_scalar_functions (q : QResult Row)
    (name_to_id : List (String × String)) :
    Except SchemaError (List ScalarFunction) :=
  (runRows q [] (funcRowStep name_to_id)).map (fun m => m.map (fun p => p.2))

/-- Embedding of `build_name_lookup`: lowercase bare name and lowercase id of
every table, then of every view, later insertions overwriting earlier ones. -/
def build_name_lookup (tables : List TableNode) (views : List ViewNode) :
    List (String × String) :=
  let m := tables.foldl
    (fun m t => mapInsert (mapInsert m (strLower t.name) t.id) (strLower t.id) t.id)
    ([] : List (String × String))
  views.foldl
    (fun m v => mapInsert (mapInsert m (strLower v.name) v.id) (strLower v.id) v.id)
    m

/-- Embedding of `load_schema_from_connection`: establishing the connection and
every catalog load propagates its error with the `?` operator — none of the
loads is best-effort in this revision. -/
def load_schema_from_connection (connect : Except SchemaError Conn) :
    Except SchemaError SchemaGraph :=
  match connect with
  | .error e => .error e
  | .ok conn =>
    match load_tables_and_columns conn.tablesQ with
    | .error e => .error e
    | .ok tables =>
      match load_views_and_columns conn.viewsQ with
      | .error e => .error e
      | .ok views0 =>
        match load_view_column_sources conn.viewSrcQ views0 with
        | .error e => .error e
        | .ok views1 =>
          let name_to_id := build_name_lookup tables views1
          let views := load_views_with_references views1 name_to_id
          match load_foreign_keys conn.fkQ with
          | .error e => .error e
          | .ok relationships =>
            match load_triggers conn.trigQ name_to_id with
            | .error e => .error e
            | .ok triggers =>
              match load_stored_procedures conn.procQ name_to_id with
              | .error e => .error e
              | .ok stored_procedures =>
                match load_scalar_functions conn.funcQ name_to_id with
                | .error e => .error e
                | .ok scalar_functions =>
                  .ok { tables := tables, views := views,
                        relationships := relationships, triggers := triggers,
                        stored_procedures := stored_procedures,
                        scalar_functions := scalar_functions }

/-! ## C1 and C2: error propagation in the load pipeline -/

/-- A connection whose mandatory queries succeed (with no rows) but whose
foreign-keys query fails to execute. -/
def cexC1Conn : Conn :=
  { tablesQ := .rows [] none, viewsQ := .rows [] none,
    viewSrcQ := .rows [] none, fkQ := .execErr (.Parse "fk failed"),
    trigQ := .rows [] none, procQ := .rows [] none, funcQ := .rows [] none }

/-- C1 counterexample: with tables and views loading fine, a failing
foreign-keys query makes `load_schema_from_connection` return the error — the
claim's graph with an empty relationships list is never produced. -/
theorem c1_fk_failure_aborts_load_counterexample :
    load_tables_and_columns cexC1Conn.tablesQ = .ok [] ∧
    load_views_and_columns cexC1Conn.viewsQ = .ok [] ∧
    load_view_column_sources cexC1Conn.viewSrcQ [] = .ok [] ∧
    load_schema_from_connection (.ok cexC1Conn) = .error (.Parse "fk failed") := by
  refine ⟨rfl, rfl, rfl, rfl⟩

/-- C1 (amended): when the mandatory loads succeed, a failure of the
foreign-keys, triggers, stored-procedures or scalar-functions query does NOT
yield an empty list for that category: `load_schema_from_connection`
propagates that query's error (each later loader runs only when all earlier
ones succeeded). -/
theorem c1_optional_category_failure_propagates (conn : Conn)
    (tables : List TableNode) (views0 views1 : List ViewNode)
    (ht : load_tables_and_columns conn.tablesQ = .ok tables)
    (hv : load_views_and_columns conn.viewsQ = .ok views0)
    (hs : load_view_column_sources conn.viewSrcQ views0 = .ok views1) :
    (∀ e, load_foreign_keys conn.fkQ = .error e →
      load_schema_from_connection (.ok conn) = .error e) ∧
    (∀ e rels, load_foreign_keys conn.fkQ = .ok rels →
      load_triggers conn.trigQ (build_name_lookup tables views1) = .error e →
      load_schema_from_connection (.ok conn) = .error e) ∧
    (∀ e rels trigs, load_foreign_keys conn.fkQ = .ok rels →
      load_triggers conn.trigQ (build_name_lookup tables views1) = .ok trigs →
      load_stored_procedures conn.procQ (build_name_lookup tables views1) = .error e →
      load_schema_from_connection (.ok conn) = .error e) ∧
    (∀ e rels trigs procs, load_foreign_keys conn.fkQ = .ok rels →
      load_triggers conn.trigQ (build_name_lookup tables views1) = .ok trigs →
      load_stored_procedures conn.procQ (build_name_lookup tables views1) = .ok procs →
      load_scalar_functions conn.funcQ (build_name_lookup tables views1) = .error e →
      load_schema_from_connection (.ok conn) = .error e) := by
  refine ⟨?_, ?_, ?_, ?_⟩
  · intro e hfk
    simp only [load_schema_from_connection, ht, hv, hs, hfk]
  · intro e rels hfk htr
    simp only [load_schema_from_connection, ht, hv, hs, hfk, htr]
  · intro e rels trigs hfk htr hp
    simp only [load_schema_from_connection, ht, hv, hs, hfk, htr, hp]
  · intro e rels trigs procs hfk htr hp hf
    simp only [load_schema_from_connection, ht, hv, hs, hfk, htr, hp, hf]

/-- C1 witness: the amended propagation applied to the concrete connection of
the counterexample. -/
theorem c1_optional_category_failure_propagates_witness :
    load_schema_from_connection (.ok cexC1Conn) = .error (.Parse "fk failed") :=
  (c1_optional_category_failure_propagates cexC1Conn [] [] [] rfl rfl rfl).1
    (.Parse "fk failed") rfl

/-- The one successfully delivered view row of the C2 scenario. -/
def c2ViewRow : Row :=
  [some "dbo", some "V", some "C1", some "int", some "4", some "10", some "0",
   some "1", some "SELECT 1"]

/-- One successfully delivered view-column-source row before the mid-stream
failure. -/
def c2SrcRow : Row :=
  [some "dbo", some "V", some "C1", some "T", some "TC"]

/-- A connection whose view-column-sources query delivers one row and then
fails mid-stream. -/
def cexC2Conn : Conn :=
  { tablesQ := .rows [] none, viewsQ := .rows [c2ViewRow] none,
    viewSrcQ := .rows [c2SrcRow] (some (.Parse "mid-stream")),
    fkQ := .rows [] none, trigQ := .rows [] none, procQ := .rows [] none,
    funcQ := .rows [] none }

/-- The view the C2 connection's views query loads. -/
def c2View : ViewNode :=
  { id := "dbo.V", name := "V", schema := "dbo",
    columns := [{ name := "C1", data_type := "int", is_nullable := true,
                  is_primary_key := false, source_table := none,
                  source_column := none }],
    definition := "SELECT 1", referenced_tables := [] }

/-- C2 counterexample: the view-column-sources query fails in the middle of
row iteration (one row delivered, then an error).  The claim demands a
returned graph with the first row's enrichment applied; the code propagates
the error and returns no graph at all. -/
theorem c2_mid_stream_failure_aborts_load_counterexample :
    load_tables_and_columns cexC2Conn.tablesQ = .ok [] ∧
    load_views_and_columns cexC2Conn.viewsQ = .ok [c2View] ∧
    load_schema_from_connection (.ok cexC2Conn) = .error (.Parse "mid-stream") := by
  refine ⟨by decide, by decide, by decide⟩

/-- C2 (amended): any failure of the view-column-sources query — opening it or
mid-stream — propagates out of `load_schema_from_connection`; no partially
enriched graph is returned, and a stream that ends in an error never yields
an enriched view list at all. -/
theorem c2_view_sources_failure_propagates (conn : Conn)
    (tables : List TableNode) (views0 : List ViewNode)
    (ht : load_tables_and_columns conn.tablesQ = .ok tables)
    (hv : load_views_and_columns conn.viewsQ = .ok views0) :
    (∀ e, load_view_column_sources conn.viewSrcQ views0 = .error e →
      load_schema_from_connection (.ok conn) = .error e) ∧
    (∀ rs e views, (load_view_column_sources (.rows rs (some e)) views).toOption = none) := by
  constructor
  · intro e hs
    simp only [load_schema_from_connection, ht, hv, hs]
  · intro rs e views
    unfold load_view_column_sources runRows
    cases hfold : foldRowsE viewSourceRowStep [] rs with
    | error e2 => simp [hfold, Except.map, Except.toOption]
    | ok s => simp [hfold, Except.map, Except.toOption]

/-- C2 witness: the amended propagation applied to the concrete mid-stream
failure of the counterexample connection. -/
theorem c2_view_sources_failure_propagates_witness :
    load_schema_from_connection (.ok cexC2Conn) = .error (.Parse "mid-stream") :=
  (c2_view_sources_failure_propagates cexC2Conn [] [c2View] (by decide)
    (by decide)).1 (.Parse "mid-stream") (by decide)

/-! ## C3: foreign-key edges are not validated against loaded tables -/

/-- A foreign-key row whose endpoints name tables that are not loaded. -/
def c3FkRow : Row :=
  [some "FK_x", some "a", some "b", some "c", some "d", some "e", some "f"]

/-- A connection that loads no tables but serves one foreign-key row. -/
def cexC3Conn : Conn :=
  { tablesQ := .rows [] none, viewsQ := .rows [] none,
    viewSrcQ := .rows [] none, fkQ := .rows [c3FkRow] none,
    trigQ := .rows [] none, procQ := .rows [] none, funcQ := .rows [] none }

/-- The edge the C3 connection's load emits. -/
def c3Edge : RelationshipEdge :=
  { id := "FK_x", «from» := "a.b", «to» := "d.e", from_column := "c",
    to_column := "f" }

/-- The graph the C3 connection's load returns: an edge whose endpoints match
no table id (the tables list is empty). -/
def c3Graph : SchemaGraph :=
  { tables := [], views := [], relationships := [c3Edge], triggers := [],
    stored_procedures := [], scalar_functions := [] }

/-- C3 counterexample: a live load produces a graph containing a relationship
edge although its `from`/`to` equal no `TableNode.id` — the foreign-key row
with unmatched endpoints is emitted, not silently dropped. -/
theorem c3_unmatched_fk_edge_emitted_counterexample :
    load_schema_from_connection (.ok cexC3Conn) = .ok c3Graph ∧
    c3Graph.tables = [] ∧
    c3Graph.relationships = [c3Edge] := by
  refine ⟨by decide, rfl, rfl⟩

/-- The edge built verbatim from the positional cells of a foreign-key row. -/
def fkEdgeOfRow (row : Row) : RelationshipEdge :=
  { id := (row.getD 0 none).getD "",
    «from» := (row.getD 1 none).getD "" ++ "." ++ (row.getD 2 none).getD "",
    «to» := (row.getD 4 none).getD "" ++ "." ++ (row.getD 5 none).getD "",
    from_column := (row.getD 3 none).getD "",
    to_column := (row.getD 6 none).getD "" }

/-- The first seven cells of the row are present (the loader reads them as
mandatory strings). -/
def fkRowOk (row : Row) : Bool :=
  (List.range 7).all (fun i => (row.getD i none).isSome)

theorem fkRowStep_ok (acc : List RelationshipEdge) (row : Row)
    (h : fkRowOk row = true) :
    fkRowStep acc row = .ok (acc ++ [fkEdgeOfRow row]) := by
  have hall := List.all_eq_true.1 h
  have h0 := hall 0 (by decide)
  have h1 := hall 1 (by decide)
  have h2 := hall 2 (by decide)
  have h3 := hall 3 (by decide)
  have h4 := hall 4 (by decide)
  have h5 := hall 5 (by decide)
  have h6 := hall 6 (by decide)
  obtain ⟨v0, hv0⟩ := Option.isSome_iff_exists.1 h0
  obtain ⟨v1, hv1⟩ := Option.isSome_iff_exists.1 h1
  obtain ⟨v2, hv2⟩ := Option.isSome_iff_exists.1 h2
  obtain ⟨v3, hv3⟩ := Option.isSome_iff_exists.1 h3
  obtain ⟨v4, hv4⟩ := Option.isSome_iff_exists.1 h4
  obtain ⟨v5, hv5⟩ := Option.isSome_iff_exists.1 h5
  obtain ⟨v6, hv6⟩ := Option.isSome_iff_exists.1 h6
  simp only [fkRowStep, get_string_column, hv0, hv1, hv2, hv3, hv4, hv5, hv6,
    fkEdgeOfRow, Except.bind, Option.getD_some, bind, pure, Except.pure]

theorem foldRowsE_fk (rs : List Row) :
    ∀ acc, (∀ r ∈ rs, fkRowOk r = true) →
      foldRowsE fkRowStep acc rs = .ok (acc ++ rs.map fkEdgeOfRow) := by
  induction rs with
  | nil =>
    intro acc _
    simp [foldRowsE]
  | cons r rest ih =>
    intro acc hall
    have hr := hall r (List.mem_cons_self r rest)
    have hrest : ∀ x ∈ rest, fkRowOk x = true := fun x hx =>
      hall x (List.mem_cons_of_mem r hx)
    have hstep := fkRowStep_ok acc r hr
    simp only [foldRowsE, hstep]
    rw [ih (acc ++ [fkEdgeOfRow r]) hrest]
    simp

/-- C3 (amended): `load_foreign_keys` emits one edge per delivered row,
verbatim from the row's cells, with no validation of `from`/`to` against the
loaded tables — edges whose endpoints match no `TableNode.id` are kept, not
dropped.  (The invariant of the claim therefore fails; see the
counterexample.) -/
theorem c3_fk_edges_unfiltered (rs : List Row)
    (h : ∀ r ∈ rs, fkRowOk r = true) :
    load_foreign_keys (.rows rs none) = .ok (rs.map fkEdgeOfRow) := by
  unfold load_foreign_keys runRows
  simp only [foldRowsE_fk rs [] h]
  simp

/-- C3 witness: the unfiltered emission applied to the counterexample's row. -/
theorem c3_fk_edges_unfiltered_witness :
    load_foreign_keys (.rows [c3FkRow] none) = .ok ([c3FkRow].map fkEdgeOfRow) :=
  c3_fk_edges_unfiltered [c3FkRow] (by decide)

/-! ## C10: catalog placeholder rows contribute no blank parameter -/

theorem foldRowsE_preserves {σ : Type} (P : σ → Prop)
    (step : σ → Row → Except SchemaError σ)
    (hstep : ∀ s r s2, P s → step s r = .ok s2 → P s2) :
    ∀ (rs : List Row) (s s2 : σ), P s → foldRowsE step s rs = .ok s2 → P s2 := by
  intro rs
  induction rs with
  | nil =>
    intro s s2 hP h
    unfold foldRowsE at h
    injection h with h2
    rw [← h2]
    exact hP
  | cons r rest ih =>
    intro s s2 hP h
    unfold foldRowsE at h
    cases hs : step s r with
    | error e =>
      rw [hs] at h
      exact Except.noConfusion h
    | ok s3 =>
      rw [hs] at h
      exact ih s3 s2 (hstep s r s3 hP hs) h

theorem updateEntry_snd_mem {α : Type} (m : List (String × α)) (k : String)
    (init : α) (f : α → α) :
    ∀ q ∈ updateEntry m k init f,
      q.2 ∈ m.map Prod.snd ∨ q.2 = f init ∨
        ∃ v ∈ m.map Prod.snd, q.2 = f v := by
  induction m with
  | nil =>
    intro q hq
    simp only [updateEntry, List.mem_singleton] at hq
    subst hq
    exact Or.inr (Or.inl rfl)
  | cons p rest ih =>
    obtain ⟨k2, v⟩ := p
    intro q hq
    by_cases hk : k2 = k
    · simp only [updateEntry, if_pos hk, List.mem_cons] at hq
      rcases hq with rfl | hq
      · exact Or.inr (Or.inr ⟨v, by simp, rfl⟩)
      · refine Or.inl ?_
        simp only [List.map_cons, List.mem_cons]
        exact Or.inr (List.mem_map.2 ⟨q, hq, rfl⟩)
    · simp only [updateEntry, if_neg hk, List.mem_cons] at hq
      rcases hq with rfl | hq
      · exact Or.inl (by simp)
      · rcases ih q hq with h1 | h2 | ⟨w, hw, he⟩
        · refine Or.inl ?_
          simp only [List.map_cons, List.mem_cons]
          exact Or.inr h1
        · exact Or.inr (Or.inl h2)
        · refine Or.inr (Or.inr ⟨w, ?_, he⟩)
          simp only [List.map_cons, List.mem_cons]
          exact Or.inr hw

theorem procRowStep_ok (idx : List (String × String))
    (m : List (String × StoredProcedure)) (row : Row)
    (m2 : List (String × StoredProcedure))
    (h : procRowStep idx m row = .ok m2) :
    ∃ (k : String) (init : StoredProcedure) (g : StoredProcedure → StoredProcedure),
      m2 = updateEntry m k init g ∧ init.parameters = [] ∧
      ∀ p : StoredProcedure, (g p).parameters = p.parameters ∨
        ∃ par, (g p).parameters = p.parameters ++ [par] ∧ par.name ≠ "" := by
  unfold procRowStep at h
  cases h0 : get_string_column row 0 with
  | error e =>
    rw [h0] at h
    simp only [bind, Except.bind] at h
    exact Except.noConfusion h
  | ok v0 =>
    rw [h0] at h
    simp only [bind, Except.bind] at h
    cases h1 : get_string_column row 1 with
    | error e =>
      rw [h1] at h
      exact Except.noConfusion h
    | ok v1 =>
      rw [h1] at h
      cases h2 : get_string_column row 2 with
      | error e =>
        rw [h2] at h
        exact Except.noConfusion h
      | ok v2 =>
        rw [h2] at h
        simp only [pure, Except.pure] at h
        injection h with h3
        refine ⟨_, _, _, h3.symm, rfl, ?_⟩
        intro p
        by_cases hn : (get_string_column row 3).toOption.getD "" ≠ ""
        · refine Or.inr
            ⟨{ name := (get_string_column row 3).toOption.getD "",
               data_type := (get_string_column row 4).toOption.getD "",
               is_output := (get_bool_column row 5).toOption.getD false },
             ?_, hn⟩
          rw [if_pos hn]
        · refine Or.inl ?_
          rw [if_neg hn]

theorem funcRowStep_ok (idx : List (String × String))
    (m : List (String × ScalarFunction)) (row : Row)
    (m2 : List (String × ScalarFunction))
    (h : funcRowStep idx m row = .ok m2) :
    ∃ (k : String) (init : ScalarFunction) (g : ScalarFunction → ScalarFunction),
      m2 = updateEntry m k init g ∧ init.parameters = [] ∧
      ∀ f : ScalarFunction, (g f).parameters = f.parameters ∨
        ∃ par, (g f).parameters = f.parameters ++ [par] ∧ par.name ≠ "" := by
  unfold funcRowStep at h
  cases h0 : get_string_column row 0 with
  | error e =>
    rw [h0] at h
    simp only [bind, Except.bind] at h
    exact Except.noConfusion h
  | ok v0 =>
    rw [h0] at h
    simp only [bind, Except.bind] at h
    cases h1 : get_string_column row 1 with
    | error e =>
      rw [h1] at h
      exact Except.noConfusion h
    | ok v1 =>
      rw [h1] at h
      cases h2 : get_string_column row 2 with
      | error e =>
        rw [h2] at h
        exact Except.noConfusion h
      | ok v2 =>
        rw [h2] at h
        simp only [pure, Except.pure] at h
        injection h with h3
        refine ⟨_, _, _, h3.symm, rfl, ?_⟩
        intro f
        by_cases hn : (get_string_column row 3).toOption.getD "" ≠ ""
        · refine Or.inr
            ⟨{ name := (get_string_column row 3).toOption.getD "",
               data_type := (get_string_column row 4).toOption.getD "",
               is_output := (get_bool_column row 5).toOption.getD false },
             ?_, hn⟩
          rw [if_pos hn]
        · refine Or.inl ?_
          rw [if_neg hn]

theorem runRows_ok_of_map {σ : Type} (q : QResult Row) (init : σ)
    (step : σ → Row → Except SchemaError σ) (out : σ)
    (h : runRows q init step = .ok out)
    (P : σ → Prop) (hinit : P init)
    (hstep : ∀ s r s2, P s → step s r = .ok s2 → P s2) : P out := by
  cases q with
  | execErr e =>
    simp only [runRows] at h
    exact Except.noConfusion h
  | noCursor =>
    simp only [runRows] at h
    injection h with h2
    rw [← h2]
    exact hinit
  | rows rs fe =>
    simp only [runRows] at h
    cases hfold : foldRowsE step init rs with
    | error e =>
      simp only [hfold] at h
      exact Except.noConfusion h
    | ok s =>
      simp only [hfold] at h
      cases fe with
      | some e => exact Except.noConfusion h
      | none =>
        injection h with h2
        rw [← h2]
        exact foldRowsE_preserves P step hstep rs init s hinit hfold

theorem load_sp_params_nonempty (q : QResult Row) (idx : List (String × String))
    (procs : List StoredProcedure)
    (h : load_stored_procedures q idx = .ok procs) :
    ∀ p ∈ procs, ∀ par ∈ p.parameters, par.name ≠ "" := by
  unfold load_stored_procedures at h
  cases hr : runRows q [] (procRowStep idx) with
  | error e =>
    rw [hr] at h
    exact Except.noConfusion h
  | ok m =>
    rw [hr] at h
    simp only [Except.map] at h
    injection h with h2
    have hm : ∀ v ∈ m.map Prod.snd, ∀ par ∈ v.parameters, par.name ≠ "" := by
      have := runRows_ok_of_map q [] (procRowStep idx) m hr
        (fun s => ∀ v ∈ s.map Prod.snd, ∀ par ∈ v.parameters, par.name ≠ "")
        (by simp) ?_
      · exact this
      · intro s r s2 hP hs
        obtain ⟨k, init, g, rfl, hinit, hg⟩ := procRowStep_ok idx s r s2 hs
        intro v hv par hpar
        obtain ⟨qq, hqq, rfl⟩ := List.mem_map.1 hv
        rcases updateEntry_snd_mem s k init g qq hqq with h1 | h1 | ⟨w, hw, h1⟩
        · exact hP qq.2 h1 par hpar
        · rcases hg init with hgi | ⟨par2, hgi, hne⟩
          · rw [h1, hgi, hinit] at hpar
            exact absurd hpar (List.not_mem_nil par)
          · rw [h1, hgi, hinit] at hpar
            simp only [List.nil_append, List.mem_singleton] at hpar
            rw [hpar]
            exact hne
        · rcases hg w with hgw | ⟨par2, hgw, hne⟩
          · rw [h1, hgw] at hpar
            exact hP w hw par hpar
          · rw [h1, hgw] at hpar
            rcases List.mem_append.1 hpar with hin | hin
            · exact hP w hw par hin
            · rw [List.mem_singleton.1 hin]
              exact hne
    rw [← h2]
    exact hm

theorem load_sf_params_nonempty (q : QResult Row) (idx : List (String × String))
    (funcs : List ScalarFunction)
    (h : load_scalar_functions q idx = .ok funcs) :
    ∀ f ∈ funcs, ∀ par ∈ f.parameters, par.name ≠ "" := by
  unfold load_scalar_functions at h
  cases hr : runRows q [] (funcRowStep idx) with
  | error e =>
    rw [hr] at h
    exact Except.noConfusion h
  | ok m =>
    rw [hr] at h
    simp only [Except.map] at h
    injection h with h2
    have hm : ∀ v ∈ m.map Prod.snd, ∀ par ∈ v.parameters, par.name ≠ "" := by
      have := runRows_ok_of_map q [] (funcRowStep idx) m hr
        (fun s => ∀ v ∈ s.map Prod.snd, ∀ par ∈ v.parameters, par.name ≠ "")
        (by simp) ?_
      · exact this
      · intro s r s2 hP hs
        obtain ⟨k, init, g, rfl, hinit, hg⟩ := funcRowStep_ok idx s r s2 hs
        intro v hv par hpar
        obtain ⟨qq, hqq, rfl⟩ := List.mem_map.1 hv
        rcases updateEntry_snd_mem s k init g qq hqq with h1 | h1 | ⟨w, hw, h1⟩
        · exact hP qq.2 h1 par hpar
        · rcases hg init with hgi | ⟨par2, hgi, hne⟩
          · rw [h1, hgi, hinit] at hpar
            exact absurd hpar (List.not_mem_nil par)
          · rw [h1, hgi, hinit] at hpar
            simp only [List.nil_append, List.mem_singleton] at hpar
            rw [hpar]
            exact hne
        · rcases hg w with hgw | ⟨par2, hgw, hne⟩
          · rw [h1, hgw] at hpar
            exact hP w hw par hpar
          · rw [h1, hgw] at hpar
            rcases List.mem_append.1 hpar with hin | hin
            · exact hP w hw par hin
            · rw [List.mem_singleton.1 hin]
              exact hne
    rw [← h2]
    exact hm

/-- A stored-procedure row whose parameter-name cell holds the LEFT-JOIN
placeholder empty string. -/
def c10ProcRow : Row :=
  [some "dbo", some "P", some "SQL_STORED_PROCEDURE", some "", some "",
   some "0", some "SELECT 1"]

/-- The procedure that row loads: emitted, with an empty parameters list. -/
def c10Proc : StoredProcedure :=
  { id := "dbo.P", name := "P", schema := "dbo",
    procedure_type := "SQL_STORED_PROCEDURE", parameters := [],
    definition := "SELECT 1", referenced_tables := [], affected_tables := [] }

/-- A scalar-function row whose parameter-name cell is the placeholder. -/
def c10FuncRow : Row :=
  [some "dbo", some "F", some "SQL_SCALAR_FUNCTION", some "", some "",
   some "0", some "int", some "RETURN 1"]

/-- The function that row loads: emitted, with an empty parameters list. -/
def c10Func : ScalarFunction :=
  { id := "dbo.F", name := "F", schema := "dbo",
    function_type := "SQL_SCALAR_FUNCTION", parameters := [],
    return_type := "int", definition := "RETURN 1",
    referenced_tables := [], affected_tables := [] }

/-- C10 (confirmed): in the stored-procedure and scalar-function loaders a row
whose parameter-name column is the empty string contributes no parameter
entry — every emitted parameter has a nonempty name — and a routine whose only
catalog row is such a placeholder is still emitted, with an empty parameters
list rather than a single blank parameter. -/
theorem c10_blank_parameter_placeholder_skipped :
    (∀ (q : QResult Row) (idx : List (String × String))
        (procs : List StoredProcedure),
      load_stored_procedures q idx = .ok procs →
      ∀ p ∈ procs, ∀ par ∈ p.parameters, par.name ≠ "") ∧
    (∀ (q : QResult Row) (idx : List (String × String))
        (funcs : List ScalarFunction),
      load_scalar_functions q idx = .ok funcs →
      ∀ f ∈ funcs, ∀ par ∈ f.parameters, par.name ≠ "") ∧
    load_stored_procedures (.rows [c10ProcRow] none) [] = .ok [c10Proc] ∧
    c10Proc.parameters = [] ∧
    load_scalar_functions (.rows [c10FuncRow] none) [] = .ok [c10Func] ∧
    c10Func.parameters = [] := by
  refine ⟨load_sp_params_nonempty, load_sf_params_nonempty, by decide, rfl,
    by decide, rfl⟩

/-- C10 witness: the nonempty-name guarantee instantiated on the concrete
placeholder row, whose emitted procedure has no parameters. -/
theorem c10_blank_parameter_placeholder_skipped_witness :
    ∀ par ∈ c10Proc.parameters, par.name ≠ "" :=
  c10_blank_parameter_placeholder_skipped.1 (.rows [c10ProcRow] none) []
    [c10Proc] (by decide) c10Proc (by decide)

/-! ## C8: reference extraction -/

theorem mem_insertDedup (l : List String) (y x : String) :
    x ∈ insertDedup l y ↔ x ∈ l ∨ x = y := by
  unfold insertDedup
  by_cases h : y ∈ l
  · simp only [if_pos h]
    constructor
    · exact Or.inl
    · rintro (hx | rfl)
      · exact hx
      · exact h
  · simp [if_neg h]

theorem nodup_insertDedup (l : List String) (y : String) (h : l.Nodup) :
    (insertDedup l y).Nodup := by
  unfold insertDedup
  by_cases hy : y ∈ l
  · simp only [if_pos hy]
    exact h
  · simp only [if_neg hy]
    exact List.Nodup.append h (List.nodup_singleton y)
      (by simp [List.disjoint_singleton]; exact hy)

theorem mem_addRefs (idx : List (String × String))
    (caps : List (Option String × String)) :
    ∀ (acc : List String) (x : String),
      x ∈ addRefs idx caps acc ↔
        x ∈ acc ∨ ∃ cap ∈ caps, lookupAssoc idx (captureKey cap) = some x := by
  induction caps with
  | nil =>
    intro acc x
    simp [addRefs]
  | cons cap rest ih =>
    intro acc x
    have hstep : addRefs idx (cap :: rest) acc =
        addRefs idx rest
          (match lookupAssoc idx (captureKey cap) with
           | some i => insertDedup acc i
           | none => acc) := by
      unfold addRefs
      rw [List.foldl_cons]
    rw [hstep]
    cases hl : lookupAssoc idx (captureKey cap) with
    | some i =>
      rw [ih (insertDedup acc i) x]
      rw [mem_insertDedup]
      constructor
      · rintro ((hx | rfl) | ⟨c, hc, hlc⟩)
        · exact Or.inl hx
        · exact Or.inr ⟨cap, List.mem_cons_self cap rest, hl⟩
        · exact Or.inr ⟨c, List.mem_cons_of_mem cap hc, hlc⟩
      · rintro (hx | ⟨c, hc, hlc⟩)
        · exact Or.inl (Or.inl hx)
        · rcases List.mem_cons.1 hc with rfl | hc2
          · rw [hl] at hlc
            injection hlc with he
            exact Or.inl (Or.inr he.symm)
          · exact Or.inr ⟨c, hc2, hlc⟩
    | none =>
      rw [ih acc x]
      constructor
      · rintro (hx | ⟨c, hc, hlc⟩)
        · exact Or.inl hx
        · exact Or.inr ⟨c, List.mem_cons_of_mem cap hc, hlc⟩
      · rintro (hx | ⟨c, hc, hlc⟩)
        · exact Or.inl hx
        · rcases List.mem_cons.1 hc with rfl | hc2
          · rw [hl] at hlc
            exact Option.noConfusion hlc
          · exact Or.inr ⟨c, hc2, hlc⟩

theorem nodup_addRefs (idx : List (String × String))
    (caps : List (Option String × String)) :
    ∀ acc : List String, acc.Nodup → (addRefs idx caps acc).Nodup := by
  induction caps with
  | nil =>
    intro acc h
    simpa [addRefs] using h
  | cons cap rest ih =>
    intro acc h
    have hstep : addRefs idx (cap :: rest) acc =
        addRefs idx rest
          (match lookupAssoc idx (captureKey cap) with
           | some i => insertDedup acc i
           | none => acc) := by
      unfold addRefs
      rw [List.foldl_cons]
    rw [hstep]
    cases hl : lookupAssoc idx (captureKey cap) with
    | some i => exact ih (insertDedup acc i) (nodup_insertDedup acc i h)
    | none => exact ih acc h

theorem readCaptures_empty : readCaptures "" = [] := rfl

theorem writeCaptures_empty : writeCaptures "" = [] := rfl

/-- The routine text of the claim's worked example (its trailing ellipsis
concretised by a clause introducing no further references). -/
def c8Def : String :=
  "INSERT INTO dbo.Archive SELECT * FROM dbo.Orders; DELETE FROM dbo.Orders WHERE Archived = 1"

/-- The name index with both names of the example indexed, bare and
schema-qualified, as `build_name_lookup` would produce. -/
def c8Idx : List (String × String) :=
  [("archive", "dbo.Archive"), ("dbo.archive", "dbo.Archive"),
   ("orders", "dbo.Orders"), ("dbo.orders", "dbo.Orders")]

/-- C8 (confirmed): a canonical id is in the read (resp. write) result of
`extract_table_references` exactly when some capture of the read (resp.
write) patterns resolves to it through the lowercased `schema.name`-or-`name`
key — captures absent from the index contribute nothing; both results are
duplicate-free; the empty definition yields empty sets; and the claim's
worked example yields read `{dbo.Orders}` and write `{dbo.Archive,
dbo.Orders}`. -/
theorem c8_extract_table_references_characterisation :
    (∀ (d : String) (idx : List (String × String)) (x : String),
      x ∈ (extract_table_references d idx).1 ↔
        ∃ cap ∈ readCaptures d, lookupAssoc idx (captureKey cap) = some x) ∧
    (∀ (d : String) (idx : List (String × String)) (x : String),
      x ∈ (extract_table_references d idx).2 ↔
        ∃ cap ∈ writeCaptures d, lookupAssoc idx (captureKey cap) = some x) ∧
    (∀ (d : String) (idx : List (String × String)),
      (extract_table_references d idx).1.Nodup ∧
      (extract_table_references d idx).2.Nodup) ∧
    (∀ idx : List (String × String), extract_table_references "" idx = ([], [])) ∧
    (extract_table_references c8Def c8Idx).1.toFinset = {"dbo.Orders"} ∧
    (extract_table_references c8Def c8Idx).2.toFinset = {"dbo.Archive", "dbo.Orders"} := by
  refine ⟨?_, ?_, ?_, ?_, by decide, by decide⟩
  · intro d idx x
    unfold extract_table_references
    by_cases hd : d = ""
    · subst hd
      rw [if_pos rfl]
      simp [readCaptures_empty]
    · rw [if_neg hd]
      rw [show ((addRefs idx (readCaptures d) [],
          addRefs idx (writeCaptures d) []).1 = addRefs idx (readCaptures d) [])
          from rfl]
      rw [mem_addRefs]
      simp
  · intro d idx x
    unfold extract_table_references
    by_cases hd : d = ""
    · subst hd
      rw [if_pos rfl]
      simp [writeCaptures_empty]
    · rw [if_neg hd]
      rw [show ((addRefs idx (readCaptures d) [],
          addRefs idx (writeCaptures d) []).2 = addRefs idx (writeCaptures d) [])
          from rfl]
      rw [mem_addRefs]
      simp
  · intro d idx
    unfold extract_table_references
    by_cases hd : d = ""
    · rw [if_pos hd]
      exact ⟨List.nodup_nil, List.nodup_nil⟩
    · rw [if_neg hd]
      exact ⟨nodup_addRefs idx (readCaptures d) [] List.nodup_nil,
             nodup_addRefs idx (writeCaptures d) [] List.nodup_nil⟩
  · intro idx
    rfl

/-! ## Mock generator (commands/mock.rs)

The mock module belongs to a later revision of the data model whose `Column`
carries `source_columns`; its structures are embedded under Mock-prefixed
names.  `usize` arithmetic is 64-bit wrapping, hence the explicit modulus. -/

def SCHEMAS : List String := ["dbo", "sales", "inventory", "hr"]

def TABLE_PREFIXES : List String :=
  ["Customer", "Order", "Product", "Category", "Employee", "Department",
   "Invoice", "Payment", "Shipment", "Supplier", "Warehouse", "Stock",
   "Account", "Transaction", "Report", "Log", "Audit", "Config", "Setting",
   "User"]

def TABLE_SUFFIXES : List String :=
  ["", "s", "Detail", "History", "Archive", "Temp", "Backup", "Master", "Ref",
   "Lookup"]

def COLUMN_NAMES : List String :=
  ["Id", "Name", "Description", "Status", "Type", "Code", "Value", "Amount",
   "Quantity", "Price", "Date", "CreatedAt", "UpdatedAt", "DeletedAt",
   "IsActive", "IsDeleted", "Priority", "Sequence", "Notes", "Comments",
   "Email", "Phone", "Address", "City", "Country", "PostalCode", "Rating",
   "Score", "Level", "Version"]

def DATA_TYPES : List String :=
  ["int", "bigint", "nvarchar(100)", "nvarchar(255)", "decimal(18,2)",
   "datetime2", "bit", "uniqueidentifier", "float", "nvarchar(max)"]

def MIN_COLUMNS : Nat := 5

def MAX_COLUMNS : Nat := 300

def WIDE_COLUMN_TIERS : List Nat := [100, 150, 200, 250, 300]

def TABLE_COLUMN_SEED : Nat := 200

def VIEW_COLUMN_SEED : Nat := 400

/-- The 64-bit `usize` modulus. -/
def USIZE_MOD : Nat := 2 ^ 64

/-- Embedding of `simple_hash`: wrapping add, wrapping multiply by the Knuth
constant, then xor with the 16-bit right shift. -/
def simple_hash (seed index : Nat) : Nat :=
  let h := (seed + index) % USIZE_MOD
  let h := (h * 2654435761) % USIZE_MOD
  h ^^^ (h >>> 16)

/-- Embedding of `generate_column_count`: the first five indices take the wide
tiers; later indices hash into [MIN_COLUMNS, MAX_COLUMNS]. -/
def generate_column_count (index seed : Nat) : Nat :=
  if index < WIDE_COLUMN_TIERS.length then WIDE_COLUMN_TIERS.getD index 0
  else MIN_COLUMNS + simple_hash seed index % (MAX_COLUMNS - MIN_COLUMNS + 1)

structure MockConfig where
  tables : Nat
  views : Nat
  relationships : Nat
  triggers : Nat
  procedures : Nat
  functions : Nat
deriving DecidableEq, Repr

/-- Embedding of `MockConfig::from_size` (the `match` with a catch-all that
falls back to the small preset). -/
def MockConfig.from_size (size : String) : MockConfig :=
  if size = "small" then ⟨10, 3, 15, 5, 5, 5⟩
  else if size = "medium" then ⟨100, 20, 150, 30, 20, 20⟩
  else if size = "large" then ⟨500, 50, 750, 100, 50, 50⟩
  else if size = "stress" then ⟨2000, 200, 3000, 300, 150, 150⟩
  else ⟨10, 3, 15, 5, 5, 5⟩

structure ColumnSource where
  table : String
  column : String
deriving DecidableEq, Repr

structure MockColumn where
  name : String
  data_type : String
  is_nullable : Bool
  is_primary_key : Bool
  source_columns : List ColumnSource
  source_table : Option String
  source_column : Option String
deriving DecidableEq, Repr

structure MockTableNode where
  id : String
  name : String
  schema : String
  columns : List MockColumn
deriving DecidableEq, Repr

structure MockViewNode where
  id : String
  name : String
  schema : String
  columns : List MockColumn
  definition : String
  referenced_tables : List String
deriving DecidableEq, Repr

/-- The `Default::default()` of the mock revision's `Column`. -/
def mockDefaultColumn : MockColumn :=
  { name := "", data_type := "", is_nullable := false, is_primary_key := false,
    source_columns := [], source_table := none, source_column := none }

/-- A non-Id column of a generated table (loop body of `generate_tables` for
`c ≥ 1`). -/
def mockTableColumn (i c : Nat) : MockColumn :=
  { name := COLUMN_NAMES.getD (simple_hash (i * 100 + c) 3 % COLUMN_NAMES.length) ""
      ++ toString c,
    data_type := DATA_TYPES.getD (simple_hash (i * 100 + c) 4 % DATA_TYPES.length) "",
    is_nullable := simple_hash (i * 100 + c) 5 % 2 = 0,
    is_primary_key := false,
    source_columns := [], source_table := none, source_column := none }

/-- One generated table (the body of the `generate_tables` loop).  The first
column is the primary-key `Id`; columns `1..num_columns` follow, so the column
count equals `generate_column_count`. -/
def genTable (i : Nat) : MockTableNode :=
  let schema := SCHEMAS.getD (i % SCHEMAS.length) ""
  let name := TABLE_PREFIXES.getD (simple_hash i 0 % TABLE_PREFIXES.length) ""
    ++ TABLE_SUFFIXES.getD (simple_hash i 1 % TABLE_SUFFIXES.length) ""
    ++ toString i
  let num_columns := generate_column_count i TABLE_COLUMN_SEED
  let idCol : MockColumn :=
    { name := "Id", data_type := "int", is_nullable := false,
      is_primary_key := true, source_columns := [], source_table := none,
      source_column := none }
  { id := schema ++ "." ++ name, name := name, schema := schema,
    columns := idCol :: (List.range (num_columns - 1)).map
      (fun c0 => mockTableColumn i (c0 + 1)) }

/-- Embedding of `generate_tables`. -/
def generate_tables (config : MockConfig) : List MockTableNode :=
  (List.range config.tables).map genTable

/-- One generated view column (loop body of `generate_views`; every generated
table has at least its `Id` column, so the source-column indexing never falls
back to the default). -/
def genViewColumn (tables : List MockTableNode) (source_table_indices : List Nat)
    (i c : Nat) : MockColumn :=
  let sidx := source_table_indices.getD
    (simple_hash (i * 1000 + c) 22 % source_table_indices.length) 0
  let st := tables.getD sidx { id := "", name := "", schema := "", columns := [] }
  let sc := st.columns.getD
    (simple_hash (i * 1000 + c) 23 % st.columns.length) mockDefaultColumn
  { name := st.name ++ "_" ++ sc.name ++ "_" ++ toString (c + 1),
    data_type := sc.data_type, is_nullable := sc.is_nullable,
    is_primary_key := false,
    source_columns := [{ table := st.id, column := sc.name }],
    source_table := some st.id, source_column := some sc.name }

/-- One generated view (the body of the `generate_views` loop). -/
def genView (tables : List MockTableNode) (i : Nat) : MockViewNode :=
  let schema := SCHEMAS.getD (i % SCHEMAS.length) ""
  let name := "vw_Report" ++ toString i
  let max_source_tables := min 3 tables.length
  let num_source_tables := 1 + simple_hash i 20 % max_source_tables
  let start_idx := simple_hash i 21 % tables.length
  let source_table_indices := (List.range num_source_tables).map
    (fun off => (start_idx + off) % tables.length)
  let referenced_tables := source_table_indices.map
    (fun idx => (tables.getD idx
      { id := "", name := "", schema := "", columns := [] }).id)
  let target := generate_column_count i VIEW_COLUMN_SEED
  { id := schema ++ "." ++ name, name := name, schema := schema,
    columns := (List.range target).map
      (fun c => genViewColumn tables source_table_indices i c),
    definition := "CREATE VIEW " ++ name ++ " AS\nSELECT * FROM "
      ++ referenced_tables.headD "unknown" ++ " -- Mock view",
    referenced_tables := referenced_tables }

/-- Embedding of `generate_views` (empty when no tables were generated). -/
def generate_views (tables : List MockTableNode) (config : MockConfig) :
    List MockViewNode :=
  if tables.isEmpty then [] else (List.range config.views).map (genView tables)

theorem generate_column_count_bounds (index seed : Nat) :
    5 ≤ generate_column_count index seed ∧
      generate_column_count index seed ≤ 300 := by
  unfold generate_column_count
  by_cases h : index < WIDE_COLUMN_TIERS.length
  · rw [if_pos h]
    have h5 : index < 5 := by simpa [WIDE_COLUMN_TIERS] using h
    interval_cases index <;> decide
  · rw [if_neg h]
    rw [show MAX_COLUMNS - MIN_COLUMNS + 1 = 296 from by decide]
    have hmod : simple_hash seed index % 296 < 296 := Nat.mod_lt _ (by decide)
    unfold MIN_COLUMNS
    omega

theorem genTable_columns_length (i : Nat) :
    (genTable i).columns.length = generate_column_count i TABLE_COLUMN_SEED := by
  have h5 := (generate_column_count_bounds i TABLE_COLUMN_SEED).1
  unfold genTable
  simp only [List.length_cons, List.length_map, List.length_range]
  omega

theorem genView_columns_length (tables : List MockTableNode) (i : Nat) :
    (genView tables i).columns.length = generate_column_count i VIEW_COLUMN_SEED := by
  unfold genView
  simp only [List.length_map, List.length_range]

/-- C9 (confirmed): for every size preset, every generated table and view
column count lies in [5, 300], and whenever at least five tables are generated
the first five table column counts are exactly [100, 150, 200, 250, 300]. -/
theorem c9_mock_column_counts (size : String) :
    ((generate_tables (MockConfig.from_size size)).all
      (fun t => decide (5 ≤ t.columns.length) && decide (t.columns.length ≤ 300)))
      = true ∧
    ((generate_views (generate_tables (MockConfig.from_size size))
        (MockConfig.from_size size)).all
      (fun v => decide (5 ≤ v.columns.length) && decide (v.columns.length ≤ 300)))
      = true ∧
    (5 ≤ (generate_tables (MockConfig.from_size size)).length →
      ((generate_tables (MockConfig.from_size size)).take 5).map
        (fun t => t.columns.length) = [100, 150, 200, 250, 300]) := by
  refine ⟨?_, ?_, ?_⟩
  · rw [List.all_eq_true]
    intro t ht
    unfold generate_tables at ht
    obtain ⟨i, _, rfl⟩ := List.mem_map.1 ht
    rw [Bool.and_eq_true, decide_eq_true_eq, decide_eq_true_eq,
      genTable_columns_length]
    exact generate_column_count_bounds i TABLE_COLUMN_SEED
  · rw [List.all_eq_true]
    intro v hv
    unfold generate_views at hv
    by_cases he : (generate_tables (MockConfig.from_size size)).isEmpty
    · rw [if_pos he] at hv
      exact absurd hv (List.not_mem_nil v)
    · rw [if_neg he] at hv
      obtain ⟨i, _, rfl⟩ := List.mem_map.1 hv
      rw [Bool.and_eq_true, decide_eq_true_eq, decide_eq_true_eq,
        genView_columns_length]
      exact generate_column_count_bounds i VIEW_COLUMN_SEED
  · intro h5
    unfold generate_tables at h5 ⊢
    rw [← List.map_take, List.take_range]
    have hn : min 5 (MockConfig.from_size size).tables = 5 := by
      rw [List.length_map, List.length_range] at h5
      omega
    rw [hn]
    have hr : List.range 5 = [0, 1, 2, 3, 4] := by decide
    rw [hr]
    simp only [List.map_cons, List.map_nil, genTable_columns_length]
    decide

/-- C9 witness: the tier equality instantiated on the small preset, whose ten
tables satisfy the five-table premise. -/
theorem c9_mock_column_counts_witness :
    ((generate_tables (MockConfig.from_size "small")).take 5).map
      (fun t => t.columns.length) = [100, 150, 200, 250, 300] :=
  (c9_mock_column_counts "small").2.2 (by decide)

end Monocle
